import Mathlib

/-!
# Verification of the blob storage abstraction layer

A shallow embedding of `src/lib/blobStorage.ts`: the `BlobPath` path model,
the `InMemoryBlobStorage` backend, and the `AzureBlobStorage` backend
(the latter over an abstract model of the Azure Blob service).

Strings are modelled as `List Char` (`Str`), JavaScript numbers used as
indices as `Int`, byte buffers as `List Nat`, and settled promises as
`PromiseResult`.  JavaScript-specific behaviors (truthiness, `substring`
clamping, `indexOf` returning `-1`) are modelled explicitly.
-/

/-- JavaScript strings, modelled as lists of characters. -/
abbrev Str := List Char

/-- Boolean prefix test on strings (used to model `String.indexOf`-style scans). -/
def strPrefixOf : Str → Str → Bool
  | [], _ => true
  | _ :: _, [] => false
  | a :: as, b :: bs => a = b && strPrefixOf as bs

/-- Models `value.indexOf(substring) !== -1`: whether `needle` occurs in `s`. -/
def strContains (s needle : Str) : Bool :=
  match s with
  | [] => strPrefixOf needle []
  | _ :: rest => strPrefixOf needle s || strContains rest needle

/-- ASCII lowercasing of a character (models JS `toLowerCase` on the ASCII
range; container names in this system are ASCII). -/
def toLowerChar (c : Char) : Char :=
  if 'A' ≤ c ∧ c ≤ 'Z' then Char.ofNat (c.toNat + 32) else c

/-- Models JS `String.prototype.toLowerCase` (ASCII range). -/
def toLowerCase (s : Str) : Str := s.map toLowerChar

/-- Models the JS expression `x || d` where `x` is an optional string:
`undefined` and the empty string are falsy and fall back to `d`. -/
def jsOrStr (x : Option Str) (d : Str) : Str :=
  match x with
  | none => d
  | some s => if s = [] then d else s

/-- Lookup in a JS-object-style string map (association list). -/
def mapFind? {α : Type} : List (Str × α) → Str → Option α
  | [], _ => none
  | (k, v) :: rest, key => if k = key then some v else mapFind? rest key

/-- Models `key in obj`. -/
def mapHasKey {α : Type} (m : List (Str × α)) (key : Str) : Bool :=
  (mapFind? m key).isSome

/-- Models `obj[key] = v`: replaces the value in place when the key is
present, otherwise appends the new entry. -/
def mapSet {α : Type} : List (Str × α) → Str → α → List (Str × α)
  | [], key, v => [(key, v)]
  | (k, w) :: rest, key, v =>
    if k = key then (k, v) :: rest else (k, w) :: mapSet rest key v

/-- Models `delete obj[key]`.  A JS object holds at most one binding per
key; removing every binding of the key makes the model insensitive to
duplicate bindings no JS object can hold. -/
def mapErase {α : Type} : List (Str × α) → Str → List (Str × α)
  | [], _ => []
  | (k, w) :: rest, key =>
    if k = key then mapErase rest key else (k, w) :: mapErase rest key

/-- A JavaScript `Error` as observed by the storage layer: a message, plus the
`statusCode` property that Azure REST errors carry. -/
structure JsError where
  message : Str
  statusCode : Option Nat
deriving DecidableEq

/-- A settled JavaScript promise. -/
inductive PromiseResult (α : Type) where
  | resolved (value : α)
  | rejected (error : JsError)
deriving DecidableEq

/-- The in-memory backend's `InvalidResourceName` message (source line 585,
with the source's "specifed" typo preserved). -/
def invalidResourceNameMessage : Str :=
  "InvalidResourceName: The specifed resource name contains invalid characters.".data

/-- The `ContainerNotFound` message (source line 589). -/
def containerNotFoundMessage : Str :=
  "ContainerNotFound: The specified container does not exist.".data

/-- The `BlobNotFound` message (source line 604). -/
def blobNotFoundMessage : Str :=
  "BlobNotFound: The specified blob does not exist.".data

/-- The error kind of a classified error: the message text before the first
colon (the spec's `"<ErrorKind>: <human description>"` pattern). -/
def errorKind (e : JsError) : Str := e.message.takeWhile (· ≠ ':')

/-- `resolveIfErrorMessageContains` (source lines 982-986). -/
def resolveIfErrorMessageContains {α : Type} (error : JsError) (substring : Str)
    (resolvedValue : α) : PromiseResult α :=
  if strContains error.message substring then .resolved resolvedValue else .rejected error

/-- `resolveIfErrorStatusCodeEquals` (source lines 975-980). -/
def resolveIfErrorStatusCodeEquals {α : Type} (error : JsError) (statusCode : Nat)
    (resolvedValue : α) : PromiseResult α :=
  match error.statusCode with
  | some c => if c = statusCode then .resolved resolvedValue else .rejected error
  | none => .rejected error

/-! ## The path model (`BlobPath`) -/

/-- `BlobPath` (source lines 55-92): a container name plus a blob name. -/
structure BlobPath where
  containerName : Str
  blobName : Str
deriving DecidableEq

/-- `BlobPath.toString` (source lines 73-75). -/
def BlobPath.toString (p : BlobPath) : Str :=
  p.containerName ++ '/' :: p.blobName

/-- Models JS `String.prototype.indexOf` for a single character: the index of
the first occurrence, or `-1`. -/
def jsIndexOf : Str → Char → Int
  | [], _ => -1
  | a :: rest, c =>
    if a = c then 0
    else
      let r := jsIndexOf rest c
      if r < 0 then -1 else r + 1

/-- Clamp a JS index argument into `[0, len]` (the coercion
`String.prototype.substring` applies to its arguments). -/
def clampIndex (i : Int) (len : Nat) : Nat :=
  if i < 0 then 0 else min i.toNat len

/-- Models JS `String.prototype.substring(start, end)`: both indices are
clamped into range and swapped when out of order; the result holds the
characters between them. -/
def jsSubstring (s : Str) (start stop : Int) : Str :=
  (s.drop (min (clampIndex start s.length) (clampIndex stop s.length))).take
    (max (clampIndex start s.length) (clampIndex stop s.length) -
     min (clampIndex start s.length) (clampIndex stop s.length))

/-- `BlobPath.parse` on a string argument (source lines 82-91; a `BlobPath`
argument is returned unchanged by the source, so only the string case is
modelled): split at the first forward slash using JS `indexOf`/`substring`
semantics. -/
def BlobPath.parse (blobPath : Str) : BlobPath :=
  let firstSlashIndex : Int := jsIndexOf blobPath '/'
  ⟨jsSubstring blobPath 0 firstSlashIndex,
   jsSubstring blobPath (firstSlashIndex + 1) blobPath.length⟩


/-! ## UTF-8 (models Node `Buffer`'s encoding/decoding of strings)

`new Buffer(string)` stores the UTF-8 encoding of the string and
`Buffer.prototype.toString()` decodes UTF-8.  Both are external platform
behavior, modelled here at the byte level. -/

/-- The UTF-8 encoding of one Unicode scalar value (1-4 bytes). -/
def utf8EncodeChar (c : Char) : List Nat :=
  if c.toNat < 0x80 then [c.toNat]
  else if c.toNat < 0x800 then [0xC0 + c.toNat / 64, 0x80 + c.toNat % 64]
  else if c.toNat < 0x10000 then
    [0xE0 + c.toNat / 4096, 0x80 + c.toNat / 64 % 64, 0x80 + c.toNat % 64]
  else
    [0xF0 + c.toNat / 262144, 0x80 + c.toNat / 4096 % 64,
     0x80 + c.toNat / 64 % 64, 0x80 + c.toNat % 64]

/-- The UTF-8 encoding of a string. -/
def utf8Encode : Str → List Nat
  | [] => []
  | c :: rest => utf8EncodeChar c ++ utf8Encode rest

/-- Build a `Char` from a valid Unicode scalar value. -/
def mkChar (v : Nat) (h : Nat.isValidChar v) : Char := Char.ofNat v

/-- Decode one UTF-8-encoded scalar value from the front of a byte list,
rejecting malformed, overlong, surrogate and out-of-range sequences. -/
def utf8DecodeChar? : List Nat → Option (Char × List Nat)
  | [] => none
  | b0 :: rest =>
    if h1 : b0 < 0x80 then
      some (mkChar b0 (Or.inl (by omega)), rest)
    else if h2 : b0 < 0xC0 then none
    else if h3 : b0 < 0xE0 then
      match rest with
      | [] => none
      | b1 :: rest1 =>
        if hc1 : 0x80 ≤ b1 ∧ b1 < 0xC0 then
          if hv : 0x80 ≤ (b0 - 0xC0) * 64 + (b1 - 0x80) then
            some (mkChar ((b0 - 0xC0) * 64 + (b1 - 0x80)) (Or.inl (by omega)), rest1)
          else none
        else none
    else if h4 : b0 < 0xF0 then
      match rest with
      | b1 :: b2 :: rest2 =>
        if hc2 : (0x80 ≤ b1 ∧ b1 < 0xC0) ∧ (0x80 ≤ b2 ∧ b2 < 0xC0) then
          if hv : 0x800 ≤ (b0 - 0xE0) * 4096 + (b1 - 0x80) * 64 + (b2 - 0x80) ∧
              ¬(0xD800 ≤ (b0 - 0xE0) * 4096 + (b1 - 0x80) * 64 + (b2 - 0x80) ∧
                (b0 - 0xE0) * 4096 + (b1 - 0x80) * 64 + (b2 - 0x80) < 0xE000) then
            some (mkChar ((b0 - 0xE0) * 4096 + (b1 - 0x80) * 64 + (b2 - 0x80))
              (by omega), rest2)
          else none
        else none
      | _ => none
    else if h5 : b0 < 0xF8 then
      match rest with
      | b1 :: b2 :: b3 :: rest3 =>
        if hc3 : (0x80 ≤ b1 ∧ b1 < 0xC0) ∧ (0x80 ≤ b2 ∧ b2 < 0xC0) ∧
            (0x80 ≤ b3 ∧ b3 < 0xC0) then
          if hv : 0x10000 ≤ (b0 - 0xF0) * 262144 + (b1 - 0x80) * 4096 +
                (b2 - 0x80) * 64 + (b3 - 0x80) ∧
              (b0 - 0xF0) * 262144 + (b1 - 0x80) * 4096 +
                (b2 - 0x80) * 64 + (b3 - 0x80) < 0x110000 then
            some (mkChar ((b0 - 0xF0) * 262144 + (b1 - 0x80) * 4096 +
              (b2 - 0x80) * 64 + (b3 - 0x80)) (Or.inr (by omega)), rest3)
          else none
        else none
      | _ => none
    else none

/-- Fueled UTF-8 decoding loop (the fuel bounds the number of decoded
characters). -/
def utf8DecodeLoop : Nat → List Nat → Option Str
  | _, [] => some []
  | 0, _ :: _ => none
  | fuel + 1, b :: bs =>
    match utf8DecodeChar? (b :: bs) with
    | none => none
    | some (c, rest) => (utf8DecodeLoop fuel rest).map (c :: ·)

/-- Decode a UTF-8 byte list into a string (`none` on malformed input). -/
def utf8Decode (l : List Nat) : Option Str := utf8DecodeLoop l.length l

/-- `Buffer.prototype.toString()`.  The replacement-character behavior on
malformed input is not modelled: every buffer stored by the modelled
operations is a valid UTF-8 encoding. -/
def bufferToString (b : List Nat) : Str := (utf8Decode b).getD []

theorem mkChar_eq (v : Nat) (h : Nat.isValidChar v) (c : Char) (hv : v = c.toNat) :
    mkChar v h = c := by
  subst hv
  exact Char.ofNat_toNat c

theorem char_toNat_valid (c : Char) : Nat.isValidChar c.toNat := c.valid

theorem char_toNat_lt (c : Char) : c.toNat < 0x110000 := by
  rcases char_toNat_valid c with h | h <;> omega

theorem utf8EncodeChar_ne_nil (c : Char) : utf8EncodeChar c ≠ [] := by
  unfold utf8EncodeChar
  split
  · simp
  · split
    · simp
    · split <;> simp

theorem utf8EncodeChar_length_pos (c : Char) : 0 < (utf8EncodeChar c).length := by
  cases h : utf8EncodeChar c with
  | nil => exact absurd h (utf8EncodeChar_ne_nil c)
  | cons b bs => simp

theorem utf8DecodeChar?_encode (c : Char) (rest : List Nat) :
    utf8DecodeChar? (utf8EncodeChar c ++ rest) = some (c, rest) := by
  have hval := char_toNat_valid c
  have hlt := char_toNat_lt c
  unfold utf8EncodeChar
  by_cases h1 : c.toNat < 0x80
  · rw [if_pos h1]
    simp only [List.cons_append, List.nil_append, utf8DecodeChar?]
    rw [dif_pos h1, mkChar_eq _ _ c rfl]
  · rw [if_neg h1]
    by_cases h2 : c.toNat < 0x800
    · rw [if_pos h2]
      simp only [List.cons_append, List.nil_append, utf8DecodeChar?]
      rw [dif_neg (by omega), dif_neg (by omega), dif_pos (by omega),
        dif_pos (by constructor <;> omega), dif_pos (by omega),
        mkChar_eq _ _ c (by omega)]
    · rw [if_neg h2]
      by_cases h3 : c.toNat < 0x10000
      · rw [if_pos h3]
        have hsur : ¬(0xD800 ≤ c.toNat ∧ c.toNat < 0xE000) := by
          rcases hval with h | h <;> omega
        simp only [List.cons_append, List.nil_append, utf8DecodeChar?]
        rw [dif_neg (by omega), dif_neg (by omega), dif_neg (by omega),
          dif_pos (by omega),
          dif_pos (by refine ⟨⟨by omega, by omega⟩, by omega, by omega⟩),
          dif_pos (by refine ⟨by omega, by omega⟩),
          mkChar_eq _ _ c (by omega)]
      · rw [if_neg h3]
        simp only [List.cons_append, List.nil_append, utf8DecodeChar?]
        rw [dif_neg (by omega), dif_neg (by omega), dif_neg (by omega),
          dif_neg (by omega), dif_pos (by omega),
          dif_pos (by refine ⟨⟨by omega, by omega⟩, ⟨by omega, by omega⟩, by omega, by omega⟩),
          dif_pos (by constructor <;> omega),
          mkChar_eq _ _ c (by omega)]

theorem utf8DecodeLoop_encode (s : Str) :
    ∀ fuel : Nat, s.length ≤ fuel → utf8DecodeLoop fuel (utf8Encode s) = some s := by
  induction s with
  | nil => intro fuel _; cases fuel <;> rfl
  | cons c cs ih =>
    intro fuel hfuel
    cases fuel with
    | zero => simp at hfuel
    | succ f =>
      obtain ⟨b, bs, hE⟩ : ∃ b bs, utf8EncodeChar c = b :: bs := by
        cases h : utf8EncodeChar c with
        | nil => exact absurd h (utf8EncodeChar_ne_nil c)
        | cons b bs => exact ⟨b, bs, rfl⟩
      have hcons : utf8Encode (c :: cs) = b :: (bs ++ utf8Encode cs) := by
        show utf8EncodeChar c ++ utf8Encode cs = _
        rw [hE, List.cons_append]
      have hdec : utf8DecodeChar? (b :: (bs ++ utf8Encode cs)) = some (c, utf8Encode cs) := by
        have h := utf8DecodeChar?_encode c (utf8Encode cs)
        rwa [hE, List.cons_append] at h
      rw [hcons]
      simp only [utf8DecodeLoop, hdec]
      rw [ih f (by simpa using hfuel)]
      rfl

theorem length_le_utf8Encode_length (s : Str) : s.length ≤ (utf8Encode s).length := by
  induction s with
  | nil => simp [utf8Encode]
  | cons c cs ih =>
    show _ ≤ (utf8EncodeChar c ++ utf8Encode cs).length
    rw [List.length_append]
    have := utf8EncodeChar_length_pos c
    simp only [List.length_cons]
    omega

/-- UTF-8 round trip: decoding the encoding of any string gives it back. -/
theorem utf8_roundtrip (s : Str) : utf8Decode (utf8Encode s) = some s :=
  utf8DecodeLoop_encode s _ (length_le_utf8Encode_length s)

theorem bufferToString_utf8Encode (s : Str) : bufferToString (utf8Encode s) = s := by
  rw [bufferToString, utf8_roundtrip]
  rfl

/-! ## Shared option records of the storage contract -/

/-- `ContainerAccessPolicy` is the string union `"private" | "blob" | "container"`
(source line 22); modelled as the string itself. -/
def privatePolicy : Str := "private".data

/-- `CreateContainerOptions` (source lines 27-38). -/
structure CreateContainerOptions where
  accessPolicy : Option Str
deriving DecidableEq

/-- `BlobContentOptions` (source lines 318-323). -/
structure BlobContentOptions where
  contentType : Option Str
deriving DecidableEq

/-- `GetURLOptions` (source lines 417-422). -/
structure GetURLOptions where
  sasToken : Option Bool
deriving DecidableEq

/-- The default content type assigned when none is provided. -/
def defaultContentType : Str := "application/octet-stream".data

/-! ## The in-memory backend (`InMemoryBlobStorage`, source lines 577-768) -/

/-- `InMemoryBlob` (source lines 569-572). -/
structure InMemoryBlob where
  contents : List Nat
  contentType : Option Str
deriving DecidableEq

/-- `InMemoryContainer` (source lines 563-567). -/
structure InMemoryContainer where
  name : Str
  blobs : List (Str × InMemoryBlob)
  accessPolicy : Str
deriving DecidableEq

/-- The state of an `InMemoryBlobStorage`: its `containers` map (source
line 578). -/
structure InMemoryBlobStorage where
  containers : List (Str × InMemoryContainer)
deriving DecidableEq

/-- `InMemoryBlobStorage.getInMemoryContainer` (source lines 580-595): name
validation followed by the map lookup. -/
def InMemoryBlobStorage.getInMemoryContainer (st : InMemoryBlobStorage)
    (containerName : Str) : PromiseResult InMemoryContainer :=
  if containerName = [] ∨ containerName ≠ toLowerCase containerName then
    .rejected ⟨invalidResourceNameMessage, none⟩
  else
    match mapFind? st.containers containerName with
    | none => .rejected ⟨containerNotFoundMessage, none⟩
    | some container => .resolved container

/-- `InMemoryBlobStorage.getInMemoryBlob` (source lines 597-606). -/
def InMemoryBlobStorage.getInMemoryBlob (st : InMemoryBlobStorage)
    (blobPath : BlobPath) : PromiseResult InMemoryBlob :=
  match st.getInMemoryContainer blobPath.containerName with
  | .rejected e => .rejected e
  | .resolved container =>
    match mapFind? container.blobs blobPath.blobName with
    | some blob => .resolved blob
    | none => .rejected ⟨blobNotFoundMessage, none⟩

/-- Replace the container stored under `containerName` (models mutation of
the container record obtained from the map). -/
def InMemoryBlobStorage.setContainer (st : InMemoryBlobStorage)
    (containerName : Str) (container : InMemoryContainer) : InMemoryBlobStorage :=
  ⟨mapSet st.containers containerName container⟩

/-- `InMemoryBlobStorage.createBlob` (source lines 621-636). -/
def InMemoryBlobStorage.createBlob (st : InMemoryBlobStorage) (blobPath : BlobPath)
    (options : Option BlobContentOptions) :
    PromiseResult Bool × InMemoryBlobStorage :=
  match st.getInMemoryContainer blobPath.containerName with
  | .rejected e => (.rejected e, st)
  | .resolved container =>
    if mapHasKey container.blobs blobPath.blobName then (.resolved false, st)
    else
      (.resolved true,
       st.setContainer blobPath.containerName
         { container with
           blobs := mapSet container.blobs blobPath.blobName
             ⟨[], some (jsOrStr (options.bind (·.contentType)) defaultContentType)⟩ })

/-- `InMemoryBlobStorage.blobExists` (source lines 638-646). -/
def InMemoryBlobStorage.blobExists (st : InMemoryBlobStorage) (blobPath : BlobPath) :
    PromiseResult Bool :=
  match st.getInMemoryContainer blobPath.containerName with
  | .resolved container => .resolved (mapHasKey container.blobs blobPath.blobName)
  | .rejected e => resolveIfErrorMessageContains e "ContainerNotFound".data false

/-- `InMemoryBlobStorage.getBlobContentsAsString` (source lines 648-651). -/
def InMemoryBlobStorage.getBlobContentsAsString (st : InMemoryBlobStorage)
    (blobPath : BlobPath) : PromiseResult Str :=
  match st.getInMemoryBlob blobPath with
  | .resolved blob => .resolved (bufferToString blob.contents)
  | .rejected e => .rejected e

/-- `InMemoryBlobStorage.setBlobContentsFromString` (source lines 653-670):
creates or overwrites the blob, storing the UTF-8 encoding of the string and
replacing the content type. -/
def InMemoryBlobStorage.setBlobContentsFromString (st : InMemoryBlobStorage)
    (blobPath : BlobPath) (blobContents : Str) (options : Option BlobContentOptions) :
    PromiseResult Unit × InMemoryBlobStorage :=
  match st.getInMemoryContainer blobPath.containerName with
  | .rejected e => (.rejected e, st)
  | .resolved container =>
    (.resolved (),
     st.setContainer blobPath.containerName
       { container with
         blobs := mapSet container.blobs blobPath.blobName
           ⟨utf8Encode blobContents,
            some (jsOrStr (options.bind (·.contentType)) defaultContentType)⟩ })

/-- `InMemoryBlobStorage.setBlobContentsFromFile` (source lines 672-689):
like `setBlobContentsFromString` but the contents come from
`fs.readFileSync`, modelled by the `fileSystem` map from file path to file
bytes (a missing file makes the read throw). -/
def InMemoryBlobStorage.setBlobContentsFromFile (st : InMemoryBlobStorage)
    (fileSystem : Str → Option (List Nat)) (blobPath : BlobPath) (filePath : Str)
    (options : Option BlobContentOptions) :
    PromiseResult Unit × InMemoryBlobStorage :=
  match st.getInMemoryContainer blobPath.containerName with
  | .rejected e => (.rejected e, st)
  | .resolved container =>
    match fileSystem filePath with
    | none => (.rejected ⟨"ENOENT: no such file or directory".data, none⟩, st)
    | some fileBytes =>
      (.resolved (),
       st.setContainer blobPath.containerName
         { container with
           blobs := mapSet container.blobs blobPath.blobName
             ⟨fileBytes,
              some (jsOrStr (options.bind (·.contentType)) defaultContentType)⟩ })

/-- `InMemoryBlobStorage.getBlobContentType` (source lines 691-694). -/
def InMemoryBlobStorage.getBlobContentType (st : InMemoryBlobStorage)
    (blobPath : BlobPath) : PromiseResult (Option Str) :=
  match st.getInMemoryBlob blobPath with
  | .resolved blob => .resolved blob.contentType
  | .rejected e => .rejected e

/-- `InMemoryBlobStorage.setBlobContentType` (source lines 696-701): the
source mutates the blob record returned by `getInMemoryBlob` in place. -/
def InMemoryBlobStorage.setBlobContentType (st : InMemoryBlobStorage)
    (blobPath : BlobPath) (contentType : Str) :
    PromiseResult Unit × InMemoryBlobStorage :=
  match st.getInMemoryContainer blobPath.containerName with
  | .rejected e => (.rejected e, st)
  | .resolved container =>
    match mapFind? container.blobs blobPath.blobName with
    | none => (.rejected ⟨blobNotFoundMessage, none⟩, st)
    | some blob =>
      (.resolved (),
       st.setContainer blobPath.containerName
         { container with
           blobs := mapSet container.blobs blobPath.blobName
             { blob with contentType := some contentType } })

/-- `InMemoryBlobStorage.deleteBlob` (source lines 703-716).  Note: the
source has no `catch` here, so a `ContainerNotFound` (or
`InvalidResourceName`) rejection from `getInMemoryContainer` propagates. -/
def InMemoryBlobStorage.deleteBlob (st : InMemoryBlobStorage) (blobPath : BlobPath) :
    PromiseResult Bool × InMemoryBlobStorage :=
  match st.getInMemoryContainer blobPath.containerName with
  | .rejected e => (.rejected e, st)
  | .resolved container =>
    if mapHasKey container.blobs blobPath.blobName then
      (.resolved true,
       st.setContainer blobPath.containerName
         { container with blobs := mapErase container.blobs blobPath.blobName })
    else (.resolved false, st)

/-- `InMemoryBlobStorage.createContainer` (source lines 718-732): a
`ContainerNotFound` rejection is swallowed, then presence decides the
boolean and a new container is inserted only when absent. -/
def InMemoryBlobStorage.createContainer (st : InMemoryBlobStorage)
    (containerName : Str) (options : Option CreateContainerOptions) :
    PromiseResult Bool × InMemoryBlobStorage :=
  let proceed : PromiseResult Bool × InMemoryBlobStorage :=
    if mapHasKey st.containers containerName then (.resolved false, st)
    else
      (.resolved true,
       ⟨mapSet st.containers containerName
         ⟨containerName, [], jsOrStr (options.bind (·.accessPolicy)) privatePolicy⟩⟩)
  match st.getInMemoryContainer containerName with
  | .resolved _ => proceed
  | .rejected e =>
    if strContains e.message "ContainerNotFound".data then proceed
    else (.rejected e, st)

/-- `InMemoryBlobStorage.containerExists` (source lines 734-738). -/
def InMemoryBlobStorage.containerExists (st : InMemoryBlobStorage)
    (containerName : Str) : PromiseResult Bool :=
  match st.getInMemoryContainer containerName with
  | .resolved _ => .resolved true
  | .rejected e => resolveIfErrorMessageContains e "ContainerNotFound".data false

/-- `InMemoryBlobStorage.getContainerAccessPolicy` (source lines 740-743). -/
def InMemoryBlobStorage.getContainerAccessPolicy (st : InMemoryBlobStorage)
    (containerName : Str) : PromiseResult Str :=
  match st.getInMemoryContainer containerName with
  | .resolved container => .resolved container.accessPolicy
  | .rejected e => .rejected e

/-- `InMemoryBlobStorage.setContainerAccessPolicy` (source lines 745-750). -/
def InMemoryBlobStorage.setContainerAccessPolicy (st : InMemoryBlobStorage)
    (containerName : Str) (permissions : Str) :
    PromiseResult Unit × InMemoryBlobStorage :=
  match st.getInMemoryContainer containerName with
  | .rejected e => (.rejected e, st)
  | .resolved container =>
    (.resolved (), st.setContainer containerName { container with accessPolicy := permissions })

/-- `InMemoryBlobStorage.deleteContainer` (source lines 752-759). -/
def InMemoryBlobStorage.deleteContainer (st : InMemoryBlobStorage)
    (containerName : Str) : PromiseResult Bool × InMemoryBlobStorage :=
  match st.getInMemoryContainer containerName with
  | .resolved _ => (.resolved true, ⟨mapErase st.containers containerName⟩)
  | .rejected e =>
    (resolveIfErrorMessageContains e "ContainerNotFound".data false, st)

/-! ## The Azure backend (`AzureBlobStorage`, source lines 777-973)

The remote Azure Blob service and the `@azure/storage-blob` SDK are external
to the repository.  They are modelled by `AzureBlobService`, an abstract
service state with the documented REST semantics the source relies on:
name validation happens server side (HTTP 400, `InvalidResourceName`),
missing containers/blobs give HTTP 404 with the `x-ms-error-code` kind in
the error message, conflicting creates give HTTP 409, an upload without a
content type stores `application/octet-stream`, and an `If-None-Match: *`
precondition makes an upload of an existing blob fail. -/

/-- The `ContainerAlreadyExists` error message (HTTP 409). -/
def containerAlreadyExistsMessage : Str :=
  "ContainerAlreadyExists: The specified container already exists.".data

/-- The `BlobAlreadyExists` error message (HTTP 409). -/
def blobAlreadyExistsMessage : Str :=
  "BlobAlreadyExists: The specified blob already exists.".data

/-- The abstract state of the Azure Blob service backing an
`AzureBlobStorage`; the container records are the same shape as the
in-memory backend's. -/
structure AzureBlobService where
  containers : List (Str × InMemoryContainer)
deriving DecidableEq

/-- Server-side resolution of a container (models the service's name
validation and container lookup). -/
def AzureBlobService.findContainer (svc : AzureBlobService) (containerName : Str) :
    PromiseResult InMemoryContainer :=
  if containerName = [] ∨ containerName ≠ toLowerCase containerName then
    .rejected ⟨invalidResourceNameMessage, some 400⟩
  else
    match mapFind? svc.containers containerName with
    | none => .rejected ⟨containerNotFoundMessage, some 404⟩
    | some container => .resolved container

/-- Server-side resolution of a blob. -/
def AzureBlobService.findBlob (svc : AzureBlobService) (blobPath : BlobPath) :
    PromiseResult InMemoryBlob :=
  match svc.findContainer blobPath.containerName with
  | .rejected e => .rejected e
  | .resolved container =>
    match mapFind? container.blobs blobPath.blobName with
    | none => .rejected ⟨blobNotFoundMessage, some 404⟩
    | some blob => .resolved blob

/-- Models `ContainerURL.create` (the service side of it). -/
def AzureBlobService.containerCreate (svc : AzureBlobService) (containerName : Str)
    (access : Option Str) : PromiseResult Unit × AzureBlobService :=
  if containerName = [] ∨ containerName ≠ toLowerCase containerName then
    (.rejected ⟨invalidResourceNameMessage, some 400⟩, svc)
  else if mapHasKey svc.containers containerName then
    (.rejected ⟨containerAlreadyExistsMessage, some 409⟩, svc)
  else
    (.resolved (),
     ⟨mapSet svc.containers containerName
       ⟨containerName, [],
        match access with
        | none => privatePolicy
        | some a => a⟩⟩)

/-- Models `ContainerURL.delete`. -/
def AzureBlobService.containerDelete (svc : AzureBlobService) (containerName : Str) :
    PromiseResult Unit × AzureBlobService :=
  match svc.findContainer containerName with
  | .rejected e => (.rejected e, svc)
  | .resolved _ => (.resolved (), ⟨mapErase svc.containers containerName⟩)

/-- Models `BlockBlobURL.upload`: creates or overwrites the blob; with the
`If-None-Match: *` precondition the upload of an existing blob fails with
HTTP 409; a missing content type is stored as `application/octet-stream`. -/
def AzureBlobService.blobUpload (svc : AzureBlobService) (blobPath : BlobPath)
    (contents : List Nat) (contentType : Option Str) (ifNoneMatchAny : Bool) :
    PromiseResult Unit × AzureBlobService :=
  match svc.findContainer blobPath.containerName with
  | .rejected e => (.rejected e, svc)
  | .resolved container =>
    if ifNoneMatchAny ∧ mapHasKey container.blobs blobPath.blobName then
      (.rejected ⟨blobAlreadyExistsMessage, some 409⟩, svc)
    else
      (.resolved (),
       ⟨mapSet svc.containers blobPath.containerName
         { container with
           blobs := mapSet container.blobs blobPath.blobName
             ⟨contents, some (jsOrStr contentType defaultContentType)⟩ }⟩)

/-- Models `BlockBlobURL.delete`. -/
def AzureBlobService.blobDelete (svc : AzureBlobService) (blobPath : BlobPath) :
    PromiseResult Unit × AzureBlobService :=
  match svc.findContainer blobPath.containerName with
  | .rejected e => (.rejected e, svc)
  | .resolved container =>
    match mapFind? container.blobs blobPath.blobName with
    | none => (.rejected ⟨blobNotFoundMessage, some 404⟩, svc)
    | some _ =>
      (.resolved (),
       ⟨mapSet svc.containers blobPath.containerName
         { container with blobs := mapErase container.blobs blobPath.blobName }⟩)

/-- Models `BlockBlobURL.getProperties`, projected to the content type. -/
def AzureBlobService.blobGetProperties (svc : AzureBlobService) (blobPath : BlobPath) :
    PromiseResult (Option Str) :=
  match svc.findBlob blobPath with
  | .rejected e => .rejected e
  | .resolved blob => .resolved blob.contentType

/-- Models `BlockBlobURL.download`, projected to the content bytes. -/
def AzureBlobService.blobDownload (svc : AzureBlobService) (blobPath : BlobPath) :
    PromiseResult (List Nat) :=
  match svc.findBlob blobPath with
  | .rejected e => .rejected e
  | .resolved blob => .resolved blob.contents

/-- Models `ContainerURL.setAccessPolicy`. -/
def AzureBlobService.containerSetAccessPolicy (svc : AzureBlobService)
    (containerName : Str) (access : Option Str) :
    PromiseResult Unit × AzureBlobService :=
  match svc.findContainer containerName with
  | .rejected e => (.rejected e, svc)
  | .resolved container =>
    (.resolved (),
     ⟨mapSet svc.containers containerName
       { container with
         accessPolicy :=
           match access with
           | none => privatePolicy
           | some a => a }⟩)

/-- `getAzureContainerAccessPermissions` (source lines 770-772): maps
`"private"` / falsy to `undefined`. -/
def getAzureContainerAccessPermissions (permissions : Option Str) : Option Str :=
  match permissions with
  | none => none
  | some p => if p ≠ [] ∧ p ≠ privatePolicy then some p else none

/-- `AzureBlobStorage.blobExists` (source lines 838-843). -/
def AzureBlobStorage.blobExists (svc : AzureBlobService) (blobPath : BlobPath) :
    PromiseResult Bool :=
  match svc.blobGetProperties blobPath with
  | .resolved _ => .resolved true
  | .rejected e => resolveIfErrorStatusCodeEquals e 404 false

/-- `AzureBlobStorage.getBlobContentsAsString` (source lines 845-852).
`readEntireString` lives in the repository's `common` module, which is not
part of the given sources. Modelled from the spec: `getBlobContentsAsString`
"decodes content as UTF-8" (spec section 4.2), so reading the downloaded
stream into a string is UTF-8 decoding of the downloaded bytes. -/
def AzureBlobStorage.getBlobContentsAsString (svc : AzureBlobService)
    (blobPath : BlobPath) : PromiseResult Str :=
  match svc.blobDownload blobPath with
  | .rejected e => .rejected e
  | .resolved bytes => .resolved (bufferToString bytes)

/-- `AzureBlobStorage.setBlobContentsFromString` (source lines 854-862). -/
def AzureBlobStorage.setBlobContentsFromString (svc : AzureBlobService)
    (blobPath : BlobPath) (blobContents : Str) (options : Option BlobContentOptions) :
    PromiseResult Unit × AzureBlobService :=
  svc.blobUpload blobPath (utf8Encode blobContents)
    (options.bind (·.contentType)) false

/-- `AzureBlobStorage.containerExists` (source lines 902-907). -/
def AzureBlobStorage.containerExists (svc : AzureBlobService) (containerName : Str) :
    PromiseResult Bool :=
  match svc.findContainer containerName with
  | .resolved _ => .resolved true
  | .rejected e => resolveIfErrorMessageContains e "ContainerNotFound".data false

/-- `AzureBlobStorage.getBlobContentType` (source lines 877-892): a non-404
failure propagates unchanged; on a 404 a secondary `containerExists` check
decides between `ContainerNotFound` and `BlobNotFound`. -/
def AzureBlobStorage.getBlobContentType (svc : AzureBlobService) (blobPath : BlobPath) :
    PromiseResult (Option Str) :=
  match svc.blobGetProperties blobPath with
  | .resolved contentType => .resolved contentType
  | .rejected e =>
    if e.statusCode ≠ some 404 then .rejected e
    else
      match AzureBlobStorage.containerExists svc blobPath.containerName with
      | .rejected e2 => .rejected e2
      | .resolved ex =>
        .rejected ⟨if ex = false then containerNotFoundMessage else blobNotFoundMessage, none⟩

/-- `AzureBlobStorage.setBlobContentType` (source lines 894-900): models
`BlockBlobURL.setHTTPHeaders`. -/
def AzureBlobStorage.setBlobContentType (svc : AzureBlobService) (blobPath : BlobPath)
    (contentType : Str) : PromiseResult Unit × AzureBlobService :=
  match svc.findContainer blobPath.containerName with
  | .rejected e => (.rejected e, svc)
  | .resolved container =>
    match mapFind? container.blobs blobPath.blobName with
    | none => (.rejected ⟨blobNotFoundMessage, some 404⟩, svc)
    | some blob =>
      (.resolved (),
       ⟨mapSet svc.containers blobPath.containerName
         { container with
           blobs := mapSet container.blobs blobPath.blobName
             { blob with contentType := some contentType } }⟩)

/-- `AzureBlobStorage.createBlob` (source lines 921-935): a conditional
upload of empty contents; the `BlobAlreadyExists` failure resolves to
`false`. -/
def AzureBlobStorage.createBlob (svc : AzureBlobService) (blobPath : BlobPath)
    (options : Option BlobContentOptions) :
    PromiseResult Bool × AzureBlobService :=
  match svc.blobUpload blobPath [] (options.bind (·.contentType)) true with
  | (.resolved _, svc2) => (.resolved true, svc2)
  | (.rejected e, svc2) =>
    (resolveIfErrorMessageContains e "BlobAlreadyExists".data false, svc2)

/-- `AzureBlobStorage.deleteBlob` (source lines 937-942): only a
`BlobNotFound` failure resolves to `false`. -/
def AzureBlobStorage.deleteBlob (svc : AzureBlobService) (blobPath : BlobPath) :
    PromiseResult Bool × AzureBlobService :=
  match svc.blobDelete blobPath with
  | (.resolved _, svc2) => (.resolved true, svc2)
  | (.rejected e, svc2) =>
    (resolveIfErrorMessageContains e "BlobNotFound".data false, svc2)

/-- `AzureBlobStorage.createContainer` (source lines 944-951). -/
def AzureBlobStorage.createContainer (svc : AzureBlobService) (containerName : Str)
    (options : Option CreateContainerOptions) :
    PromiseResult Bool × AzureBlobService :=
  match svc.containerCreate containerName
      (getAzureContainerAccessPermissions (options.bind (·.accessPolicy))) with
  | (.resolved _, svc2) => (.resolved true, svc2)
  | (.rejected e, svc2) =>
    (resolveIfErrorMessageContains e "ContainerAlreadyExists".data false, svc2)

/-- `AzureBlobStorage.deleteContainer` (source lines 953-958). -/
def AzureBlobStorage.deleteContainer (svc : AzureBlobService) (containerName : Str) :
    PromiseResult Bool × AzureBlobService :=
  match svc.containerDelete containerName with
  | (.resolved _, svc2) => (.resolved true, svc2)
  | (.rejected e, svc2) => (resolveIfErrorStatusCodeEquals e 404 false, svc2)

/-- `AzureBlobStorage.getContainerAccessPolicy` (source lines 909-913):
`accessPolicy.blobPublicAccess || "private"`. -/
def AzureBlobStorage.getContainerAccessPolicy (svc : AzureBlobService)
    (containerName : Str) : PromiseResult Str :=
  match svc.findContainer containerName with
  | .rejected e => .rejected e
  | .resolved container =>
    .resolved (if container.accessPolicy = privatePolicy then privatePolicy
               else container.accessPolicy)

/-- `AzureBlobStorage.setContainerAccessPolicy` (source lines 915-919). -/
def AzureBlobStorage.setContainerAccessPolicy (svc : AzureBlobService)
    (containerName : Str) (permissions : Str) :
    PromiseResult Unit × AzureBlobService :=
  svc.containerSetAccessPolicy containerName
    (getAzureContainerAccessPermissions (some permissions))

/-! ## URL operations (`getURL` / `getContainerURL` / `getBlobURL`,
source lines 804-836) -/

/-- Modelled from the spec: `URLBuilder` comes from the repository's `url`
module, which is not part of the given sources.  Per spec sections 4.5 and 6
a URL has a path portion and an optional query string holding the SAS
credentials; the builder can read/replace the path and remove the query. -/
structure URLBuilder where
  base : Str
  path : Str
  query : Option Str
deriving DecidableEq

/-- `URLBuilder.getPath` (modelled from the spec): the path portion. -/
def URLBuilder.getPath (u : URLBuilder) : Str := u.path

/-- `URLBuilder.setPath` (modelled from the spec). -/
def URLBuilder.setPath (u : URLBuilder) (path : Str) : URLBuilder :=
  { u with path := path }

/-- `URLBuilder.removeQuery` (modelled from the spec): drops the query
string. -/
def URLBuilder.removeQuery (u : URLBuilder) : URLBuilder :=
  { u with query := none }

/-- `URLBuilder.toString` (modelled from the spec):
`base ++ path ++ "?" ++ query`. -/
def URLBuilder.toStr (u : URLBuilder) : Str :=
  u.base ++ u.path ++ (match u.query with
                       | none => []
                       | some q => '?' :: q)

/-- Modelled from the spec: the static `URLBuilder.removeQuery(string)` used
by `getURL` (source line 807) parses the string, removes the query and
re-serializes, which on a URL string drops everything from the first `?`. -/
def URLBuilder.removeQueryStr (s : Str) : Str := s.takeWhile (· ≠ '?')

/-- Modelled from the spec: `replaceAll` from the repository's `common`
module, which is not part of the given sources; replaces every occurrence of
`searchValue` (non-overlapping, left to right).  The fuel argument bounds
the number of scanned positions; every call site passes the input's
length. -/
def replaceAllLoop (searchValue replaceValue : Str) : Nat → Str → Str
  | _, [] => []
  | 0, s => s
  | fuel + 1, c :: rest =>
    if strPrefixOf searchValue (c :: rest) then
      replaceValue ++ replaceAllLoop searchValue replaceValue fuel
        (List.drop (searchValue.length - 1) rest)
    else c :: replaceAllLoop searchValue replaceValue fuel rest

/-- Modelled from the spec: `replaceAll value searchValue replaceValue`. -/
def replaceAll (value searchValue replaceValue : Str) : Str :=
  if searchValue = [] then value
  else replaceAllLoop searchValue replaceValue value.length value

/-- The configuration of an `AzureBlobStorage`: the storage account URL it
was constructed from, split into its base and its optional SAS-token query
string (source lines 778-792: `this.url`). -/
structure AzureStorageAccount where
  base : Str
  sasToken : Option Str
deriving DecidableEq

/-- `this.url`: the string form of the account URL. -/
def AzureStorageAccount.urlString (cfg : AzureStorageAccount) : Str :=
  cfg.base ++ (match cfg.sasToken with
               | none => []
               | some q => '?' :: q)

/-- Percent-encode path separators (`'/'` becomes `"%2F"`): the escaping the
Azure SDK applies to a blob name appended to a URL path, which the source
normalizes back (spec section 4.5). -/
def encodeSlashes : Str → Str
  | [] => []
  | c :: rest =>
    (if c = '/' then '%' :: '2' :: 'F' :: [] else [c]) ++ encodeSlashes rest

/-- Models the SDK's `ContainerURL.fromServiceURL` (source lines 794-796):
appends the container name to the account URL's path, keeping the SAS
query. -/
def getAzureContainerURLModel (cfg : AzureStorageAccount) (containerName : Str) :
    URLBuilder :=
  ⟨cfg.base, '/' :: containerName, cfg.sasToken⟩

/-- Models the SDK's `BlockBlobURL.fromContainerURL` (source lines 798-802):
appends the blob name, percent-encoding its path separators. -/
def getBlockBlobURLModel (cfg : AzureStorageAccount) (blobPath : BlobPath) :
    URLBuilder :=
  ⟨cfg.base, '/' :: blobPath.containerName ++ '/' :: encodeSlashes blobPath.blobName,
   cfg.sasToken⟩

/-- The source's test `options && !options.sasToken`: an options value was
passed and its `sasToken` field is absent (`undefined`) or `false`. -/
def optionsWantNoSasToken (options : Option GetURLOptions) : Bool :=
  match options with
  | none => false
  | some o =>
    match o.sasToken with
    | none => true
    | some b => !b

/-- `AzureBlobStorage.getURL` (source lines 804-810).  The source computes a
query-stripped `result` when the caller did not ask for the SAS token, but
then returns `this.url` unchanged — the `result` local is dead. -/
def AzureBlobStorage.getURL (cfg : AzureStorageAccount)
    (options : Option GetURLOptions) : Str :=
  let result : Str := cfg.urlString
  let _result : Str :=
    if optionsWantNoSasToken options then URLBuilder.removeQueryStr result else result
  cfg.urlString

/-- `AzureBlobStorage.getContainerURL` (source lines 812-823): decodes
`"%2F"` back to `"/"` in the path and optionally strips the query string. -/
def AzureBlobStorage.getContainerURL (cfg : AzureStorageAccount)
    (containerName : Str) (options : Option GetURLOptions) : Str :=
  let url : URLBuilder := getAzureContainerURLModel cfg containerName
  let path : Str := url.getPath
  let url : URLBuilder :=
    if path ≠ [] then url.setPath (replaceAll path "%2F".data "/".data) else url
  let url : URLBuilder :=
    if optionsWantNoSasToken options then url.removeQuery else url
  url.toStr

/-- `AzureBlobStorage.getBlobURL` (source lines 825-836). -/
def AzureBlobStorage.getBlobURL (cfg : AzureStorageAccount) (blobPath : BlobPath)
    (options : Option GetURLOptions) : Str :=
  let url : URLBuilder := getBlockBlobURLModel cfg blobPath
  let path : Str := url.getPath
  let url : URLBuilder :=
    if path ≠ [] then url.setPath (replaceAll path "%2F".data "/".data) else url
  let url : URLBuilder :=
    if optionsWantNoSasToken options then url.removeQuery else url
  url.toStr

/-! ## Observations used by the backend-parity and content-type theorems -/

/-- Two settled promises have the same outcome when they resolve to the same
value or reject with the same error kind (the spec's backend-parity
notion). -/
def sameOutcome {α : Type} : PromiseResult α → PromiseResult α → Prop
  | .resolved a, .resolved b => a = b
  | .rejected e1, .rejected e2 => errorKind e1 = errorKind e2
  | _, _ => False

/-- The content type currently stored for a blob in the in-memory backend
(`none` when the container or the blob is absent). -/
def storedContentType (st : InMemoryBlobStorage) (p : BlobPath) : Option (Option Str) :=
  match mapFind? st.containers p.containerName with
  | none => none
  | some container =>
    match mapFind? container.blobs p.blobName with
    | none => none
    | some blob => some blob.contentType

/-! ## Lemmas about the path model -/

theorem jsIndexOf_eq_neg_one {s : Str} {ch : Char} (h : ∀ a ∈ s, a ≠ ch) :
    jsIndexOf s ch = -1 := by
  induction s with
  | nil => rfl
  | cons a rest ih =>
    have ha : a ≠ ch := h a (by simp)
    have hrest : jsIndexOf rest ch = -1 := ih (fun x hx => h x (by simp [hx]))
    simp only [jsIndexOf, if_neg ha, hrest]
    rfl

theorem jsIndexOf_append {pre rest : Str} {ch : Char} (h : ∀ a ∈ pre, a ≠ ch) :
    jsIndexOf (pre ++ ch :: rest) ch = pre.length := by
  induction pre with
  | nil => simp [jsIndexOf]
  | cons a pre' ih =>
    have ha : a ≠ ch := h a (by simp)
    have hpre : jsIndexOf (pre' ++ ch :: rest) ch = pre'.length :=
      ih (fun x hx => h x (by simp [hx]))
    show jsIndexOf (a :: (pre' ++ ch :: rest)) ch = _
    simp only [jsIndexOf, if_neg ha, hpre]
    rw [if_neg (by omega)]
    simp only [List.length_cons]
    omega

theorem clampIndex_natCast (n : Nat) (len : Nat) :
    clampIndex (n : Int) len = min n len := by
  unfold clampIndex
  rw [if_neg (by omega), Int.toNat_natCast]

theorem clampIndex_zero (len : Nat) : clampIndex 0 len = 0 := by
  have := clampIndex_natCast 0 len
  simpa using this

theorem jsSubstring_of_nat (s : Str) (a b : Nat) (ha : a ≤ s.length)
    (hb : b ≤ s.length) (hab : a ≤ b) :
    jsSubstring s (a : Int) (b : Int) = (s.drop a).take (b - a) := by
  unfold jsSubstring
  rw [clampIndex_natCast, clampIndex_natCast, min_eq_left ha, min_eq_left hb,
    min_eq_left hab, max_eq_right hab]

theorem list_take_append_length {α : Type} (l₁ l₂ : List α) :
    (l₁ ++ l₂).take l₁.length = l₁ := by
  induction l₁ with
  | nil => rfl
  | cons a l ih => simp [ih]

theorem list_drop_append_length {α : Type} (l₁ l₂ : List α) :
    (l₁ ++ l₂).drop l₁.length = l₂ := by
  induction l₁ with
  | nil => rfl
  | cons a l ih => simp [ih]

theorem clampIndex_neg_one (len : Nat) : clampIndex (-1) len = 0 := by
  unfold clampIndex
  norm_num

theorem jsSubstring_zero_neg_one (s : Str) : jsSubstring s 0 (-1) = [] := by
  unfold jsSubstring
  rw [clampIndex_zero, clampIndex_neg_one]
  simp

theorem jsSubstring_zero_len (s : Str) : jsSubstring s 0 s.length = s := by
  have h0 : ((0 : Nat) : Int) = (0 : Int) := rfl
  have := jsSubstring_of_nat s 0 s.length (by omega) (by omega) (by omega)
  rw [h0] at this
  rw [this]
  simp

theorem blobPath_parse_append {containerName rest : Str}
    (h : ∀ a ∈ containerName, a ≠ '/') :
    BlobPath.parse (containerName ++ '/' :: rest) = ⟨containerName, rest⟩ := by
  have hidx : jsIndexOf (containerName ++ '/' :: rest) '/' = containerName.length :=
    jsIndexOf_append h
  have hlen : (containerName ++ '/' :: rest).length
      = containerName.length + 1 + rest.length := by
    simp only [List.length_append, List.length_cons]
    omega
  simp only [BlobPath.parse, hidx]
  congr 1
  · have h0 : ((0 : Nat) : Int) = (0 : Int) := rfl
    have he := jsSubstring_of_nat (containerName ++ '/' :: rest) 0 containerName.length
      (by omega) (by rw [hlen]; omega) (by omega)
    rw [h0] at he
    rw [he]
    simp only [Nat.sub_zero, List.drop_zero]
    exact list_take_append_length containerName ('/' :: rest)
  · have hcast : (containerName.length : Int) + 1
        = ((containerName.length + 1 : Nat) : Int) := by omega
    rw [hcast]
    have he := jsSubstring_of_nat (containerName ++ '/' :: rest)
      (containerName.length + 1) (containerName ++ '/' :: rest).length
      (by rw [hlen]; omega) (by omega) (by rw [hlen]; omega)
    rw [he]
    have hsplit : containerName ++ '/' :: rest = (containerName ++ ['/']) ++ rest := by
      simp
    have hlen2 : containerName.length + 1 = (containerName ++ ['/']).length := by
      simp
    rw [hsplit, hlen2, list_drop_append_length]
    apply List.take_of_length_le
    rw [hsplit] at hlen
    simp only [List.length_append, List.length_cons, List.length_nil] at hlen ⊢
    omega

/-! ## Lemmas about the string-map model -/

theorem mapFind?_mapSet_self {α : Type} (m : List (Str × α)) (k : Str) (v : α) :
    mapFind? (mapSet m k v) k = some v := by
  induction m with
  | nil => simp [mapSet, mapFind?]
  | cons kv rest ih =>
    obtain ⟨k', w⟩ := kv
    by_cases h : k' = k
    · simp [mapSet, h, mapFind?]
    · simp [mapSet, h, mapFind?, ih]

theorem mapFind?_mapSet_ne {α : Type} (m : List (Str × α)) (k k' : Str) (v : α)
    (h : k' ≠ k) : mapFind? (mapSet m k v) k' = mapFind? m k' := by
  induction m with
  | nil => simp [mapSet, mapFind?, Ne.symm h]
  | cons kv rest ih =>
    obtain ⟨k0, w⟩ := kv
    by_cases h0 : k0 = k
    · subst h0
      simp [mapSet, mapFind?, Ne.symm h]
    · simp only [mapSet, if_neg h0, mapFind?]
      by_cases h1 : k0 = k'
      · simp [h1]
      · simp [h1, ih]

theorem mapFind?_mapErase_self {α : Type} (m : List (Str × α)) (k : Str) :
    mapFind? (mapErase m k) k = none := by
  induction m with
  | nil => rfl
  | cons kv rest ih =>
    obtain ⟨k0, w⟩ := kv
    by_cases h0 : k0 = k
    · simp [mapErase, h0, ih]
    · simp [mapErase, h0, mapFind?, ih]

theorem mapFind?_mapErase_ne {α : Type} (m : List (Str × α)) (k k' : Str)
    (h : k' ≠ k) : mapFind? (mapErase m k) k' = mapFind? m k' := by
  induction m with
  | nil => rfl
  | cons kv rest ih =>
    obtain ⟨k0, w⟩ := kv
    by_cases h0 : k0 = k
    · subst h0
      simp [mapErase, mapFind?, Ne.symm h, ih]
    · simp only [mapErase, if_neg h0, mapFind?]
      by_cases h1 : k0 = k'
      · simp [h1]
      · simp [h1, ih]

theorem mapHasKey_mapSet_self {α : Type} (m : List (Str × α)) (k : Str) (v : α) :
    mapHasKey (mapSet m k v) k = true := by
  simp [mapHasKey, mapFind?_mapSet_self]

/-! ## Decidable facts about the error-message constants -/

theorem invalid_not_contains_CNF :
    strContains invalidResourceNameMessage "ContainerNotFound".data = false := by decide

theorem invalid_not_contains_BNF :
    strContains invalidResourceNameMessage "BlobNotFound".data = false := by decide

theorem invalid_not_contains_CAE :
    strContains invalidResourceNameMessage "ContainerAlreadyExists".data = false := by decide

theorem CNF_contains_CNF :
    strContains containerNotFoundMessage "ContainerNotFound".data = true := by decide

theorem CNF_not_contains_BNF :
    strContains containerNotFoundMessage "BlobNotFound".data = false := by decide

theorem BNF_contains_BNF :
    strContains blobNotFoundMessage "BlobNotFound".data = true := by decide

theorem CAE_contains_CAE :
    strContains containerAlreadyExistsMessage "ContainerAlreadyExists".data = true := by decide

theorem BAE_contains_BAE :
    strContains blobAlreadyExistsMessage "BlobAlreadyExists".data = true := by decide

/-! ## The claims about the path model -/

/-- C3, counterexample: `BlobPath.parse` applied to `"ab"`, a string with no
separator, does not fail — it returns the `BlobPath` value with empty
container name and the whole input as blob name (JS `substring` clamps the
`-1` from `indexOf`). -/
theorem parse_no_separator_returns_blobPath :
    BlobPath.parse "ab".data = ⟨[], "ab".data⟩ := by decide

/-- C3, amended: for every string with no `'/'`, `BlobPath.parse` does not
fail with an `InvalidResourceName`-class error; it returns the `BlobPath`
with empty container name and the entire input as the blob name. -/
theorem parse_no_separator_spec (s : Str) (h : ∀ a ∈ s, a ≠ '/') :
    BlobPath.parse s = ⟨[], s⟩ := by
  have hidx : jsIndexOf s '/' = -1 := jsIndexOf_eq_neg_one h
  simp only [BlobPath.parse, hidx]
  congr 1
  · exact jsSubstring_zero_neg_one s
  · have h01 : (-1 : Int) + 1 = ((0 : Nat) : Int) := by decide
    rw [h01]
    have := jsSubstring_of_nat s 0 s.length (by omega) (by omega) (by omega)
    rw [this]
    simp

theorem parse_no_separator_spec_witness :
    (∀ a ∈ "xyz".data, a ≠ '/') ∧ BlobPath.parse "xyz".data = ⟨[], "xyz".data⟩ :=
  ⟨by decide, parse_no_separator_spec "xyz".data (by decide)⟩

/-- C6: parsing `containerName ++ "/" ++ rest` (with the first separator the
one shown) yields `containerName` as the container and `rest` — which may
itself contain separators — as the blob name, and `toString` restores the
original string; in particular `parse "a/b/c"` is `⟨"a", "b/c"⟩` and its
`toString` is `"a/b/c"`. -/
theorem parse_first_separator_roundtrip :
    (∀ containerName rest : Str, (∀ a ∈ containerName, a ≠ '/') →
      BlobPath.parse (containerName ++ '/' :: rest) = ⟨containerName, rest⟩ ∧
      (BlobPath.parse (containerName ++ '/' :: rest)).toString
        = containerName ++ '/' :: rest) ∧
    BlobPath.parse "a/b/c".data = ⟨"a".data, "b/c".data⟩ ∧
    (BlobPath.parse "a/b/c".data).toString = "a/b/c".data := by
  refine ⟨fun containerName rest h => ?_, by decide, by decide⟩
  have hp := @blobPath_parse_append containerName rest h
  exact ⟨hp, by rw [hp]; rfl⟩

theorem parse_first_separator_roundtrip_witness :
    (∀ a ∈ "con".data, a ≠ '/') ∧
    BlobPath.parse ("con".data ++ '/' :: "x/y".data) = ⟨"con".data, "x/y".data⟩ :=
  ⟨by decide,
   (parse_first_separator_roundtrip.1 "con".data "x/y".data (by decide)).1⟩

/-! ## The claim about URL construction -/

/-- C1: evaluation at a concrete storage account whose URL carries the SAS
token `"sv=abc"`, with options `{sasToken: false}`.  `getContainerURL` and
`getBlobURL` strip the query string and decode the SDK's `"%2F"` escapes
back to literal `'/'`, but `getURL` returns the account URL with the query
string still present: source lines 804-810 compute the query-stripped
`result` and then return `this.url` unchanged, so the claim fails for
`getURL`. -/
theorem getURL_keeps_query_while_container_and_blob_URLs_strip_it :
    AzureBlobStorage.getURL
        ⟨"https://fake.storage.com".data, some "sv=abc".data⟩
        (some ⟨some false⟩)
      = "https://fake.storage.com?sv=abc".data ∧
    AzureBlobStorage.getContainerURL
        ⟨"https://fake.storage.com".data, some "sv=abc".data⟩
        "con".data (some ⟨some false⟩)
      = "https://fake.storage.com/con".data ∧
    AzureBlobStorage.getBlobURL
        ⟨"https://fake.storage.com".data, some "sv=abc".data⟩
        ⟨"con".data, "a/b".data⟩ (some ⟨some false⟩)
      = "https://fake.storage.com/con/a/b".data ∧
    getBlockBlobURLModel
        ⟨"https://fake.storage.com".data, some "sv=abc".data⟩
        ⟨"con".data, "a/b".data⟩
      = ⟨"https://fake.storage.com".data, "/con/a%2Fb".data, some "sv=abc".data⟩ := by
  decide

/-! ## The claims about the in-memory backend -/

/-- C5: for a valid (non-empty, lowercase) container name absent from the
state, `createContainer` resolves `true`; calling it again on the resulting
state (with any options) resolves `false` without failing and leaves the
state — including the existing container's contents and access policy —
unchanged. -/
theorem createContainer_true_then_false (st : InMemoryBlobStorage) (n : Str)
    (options options2 : Option CreateContainerOptions)
    (hvalid : ¬(n = [] ∨ n ≠ toLowerCase n))
    (habsent : mapFind? st.containers n = none) :
    (st.createContainer n options).1 = .resolved true ∧
    ((st.createContainer n options).2.createContainer n options2).1 = .resolved false ∧
    ((st.createContainer n options).2.createContainer n options2).2
      = (st.createContainer n options).2 := by
  have hg : st.getInMemoryContainer n = .rejected ⟨containerNotFoundMessage, none⟩ := by
    simp only [InMemoryBlobStorage.getInMemoryContainer, if_neg hvalid, habsent]
  have hhk : mapHasKey st.containers n = false := by
    simp [mapHasKey, habsent]
  have hfirst : st.createContainer n options
      = (.resolved true,
         ⟨mapSet st.containers n
           ⟨n, [], jsOrStr (options.bind (·.accessPolicy)) privatePolicy⟩⟩) := by
    simp only [InMemoryBlobStorage.createContainer, hg, hhk, Bool.false_eq_true, if_false]
    rw [if_pos (by decide)]
  have hg2 : (st.createContainer n options).2.getInMemoryContainer n
      = .resolved ⟨n, [], jsOrStr (options.bind (·.accessPolicy)) privatePolicy⟩ := by
    rw [hfirst]
    simp only [InMemoryBlobStorage.getInMemoryContainer, if_neg hvalid,
      mapFind?_mapSet_self]
  have hhk2 : mapHasKey (st.createContainer n options).2.containers n = true := by
    rw [hfirst]
    exact mapHasKey_mapSet_self _ _ _
  refine ⟨by rw [hfirst], ?_, ?_⟩ <;>
  · generalize hst1 : (st.createContainer n options).2 = st1 at hg2 hhk2 ⊢
    simp [InMemoryBlobStorage.createContainer, hg2, hhk2]

theorem createContainer_true_then_false_witness :
    (¬("logs".data = [] ∨ "logs".data ≠ toLowerCase "logs".data) ∧
     mapFind? (⟨[]⟩ : InMemoryBlobStorage).containers "logs".data = none) ∧
    ((⟨[]⟩ : InMemoryBlobStorage).createContainer "logs".data none).1 = .resolved true ∧
    (((⟨[]⟩ : InMemoryBlobStorage).createContainer "logs".data none).2.createContainer
        "logs".data none).1 = .resolved false ∧
    (((⟨[]⟩ : InMemoryBlobStorage).createContainer "logs".data none).2.createContainer
        "logs".data none).2
      = ((⟨[]⟩ : InMemoryBlobStorage).createContainer "logs".data none).2 :=
  ⟨⟨by decide, by decide⟩,
   createContainer_true_then_false ⟨[]⟩ "logs".data none none (by decide) (by decide)⟩

/-- C8: for every container name that is empty or not equal to its own
lowercase form, every in-memory operation addressing that container fails
with the `InvalidResourceName` error — whose message begins with the kind
name `"InvalidResourceName"` — regardless of the backend state, and the
returned state is unchanged. -/
theorem invalid_name_rejects_every_operation (st : InMemoryBlobStorage)
    (n : Str) (p : BlobPath) (options : Option CreateContainerOptions)
    (boptions : Option BlobContentOptions) (s ct filePath : Str)
    (fileSystem : Str → Option (List Nat))
    (hinvalid : n = [] ∨ n ≠ toLowerCase n) (hp : p.containerName = n) :
    strPrefixOf "InvalidResourceName".data invalidResourceNameMessage = true ∧
    st.createContainer n options = (.rejected ⟨invalidResourceNameMessage, none⟩, st) ∧
    st.containerExists n = .rejected ⟨invalidResourceNameMessage, none⟩ ∧
    st.getContainerAccessPolicy n = .rejected ⟨invalidResourceNameMessage, none⟩ ∧
    st.setContainerAccessPolicy n ct = (.rejected ⟨invalidResourceNameMessage, none⟩, st) ∧
    st.deleteContainer n = (.rejected ⟨invalidResourceNameMessage, none⟩, st) ∧
    st.createBlob p boptions = (.rejected ⟨invalidResourceNameMessage, none⟩, st) ∧
    st.deleteBlob p = (.rejected ⟨invalidResourceNameMessage, none⟩, st) ∧
    st.blobExists p = .rejected ⟨invalidResourceNameMessage, none⟩ ∧
    st.getBlobContentsAsString p = .rejected ⟨invalidResourceNameMessage, none⟩ ∧
    st.setBlobContentsFromString p s boptions
      = (.rejected ⟨invalidResourceNameMessage, none⟩, st) ∧
    st.setBlobContentsFromFile fileSystem p filePath boptions
      = (.rejected ⟨invalidResourceNameMessage, none⟩, st) ∧
    st.getBlobContentType p = .rejected ⟨invalidResourceNameMessage, none⟩ ∧
    st.setBlobContentType p ct = (.rejected ⟨invalidResourceNameMessage, none⟩, st) := by
  have hg : st.getInMemoryContainer n = .rejected ⟨invalidResourceNameMessage, none⟩ := by
    simp only [InMemoryBlobStorage.getInMemoryContainer, if_pos hinvalid]
  have hgp : st.getInMemoryContainer p.containerName
      = .rejected ⟨invalidResourceNameMessage, none⟩ := by rw [hp]; exact hg
  have hblob : st.getInMemoryBlob p = .rejected ⟨invalidResourceNameMessage, none⟩ := by
    simp only [InMemoryBlobStorage.getInMemoryBlob, hgp]
  refine ⟨by decide, ?_, ?_, ?_, ?_, ?_, ?_, ?_, ?_, ?_, ?_, ?_, ?_, ?_⟩
  · simp only [InMemoryBlobStorage.createContainer, hg]
    rw [if_neg (by decide)]
  · simp only [InMemoryBlobStorage.containerExists, hg, resolveIfErrorMessageContains]
    rw [if_neg (by decide)]
  · simp only [InMemoryBlobStorage.getContainerAccessPolicy, hg]
  · simp only [InMemoryBlobStorage.setContainerAccessPolicy, hg]
  · simp only [InMemoryBlobStorage.deleteContainer, hg, resolveIfErrorMessageContains]
    rw [if_neg (by decide)]
  · simp only [InMemoryBlobStorage.createBlob, hgp]
  · simp only [InMemoryBlobStorage.deleteBlob, hgp]
  · simp only [InMemoryBlobStorage.blobExists, hgp, resolveIfErrorMessageContains]
    rw [if_neg (by decide)]
  · simp only [InMemoryBlobStorage.getBlobContentsAsString, hblob]
  · simp only [InMemoryBlobStorage.setBlobContentsFromString, hgp]
  · simp only [InMemoryBlobStorage.setBlobContentsFromFile, hgp]
  · simp only [InMemoryBlobStorage.getBlobContentType, hblob]
  · simp only [InMemoryBlobStorage.setBlobContentType, hgp]

theorem invalid_name_rejects_every_operation_witness :
    (("Logs".data = [] ∨ "Logs".data ≠ toLowerCase "Logs".data) ∧
     (BlobPath.mk "Logs".data "b.txt".data).containerName = "Logs".data) ∧
    (⟨[]⟩ : InMemoryBlobStorage).createContainer "Logs".data none
      = (.rejected ⟨invalidResourceNameMessage, none⟩, ⟨[]⟩) ∧
    (⟨[]⟩ : InMemoryBlobStorage).blobExists ⟨"Logs".data, "b.txt".data⟩
      = .rejected ⟨invalidResourceNameMessage, none⟩ :=
  ⟨⟨by decide, by decide⟩,
   (invalid_name_rejects_every_operation ⟨[]⟩ "Logs".data ⟨"Logs".data, "b.txt".data⟩
      none none [] [] [] (fun _ => none) (by decide) (by decide)).2.1,
   (invalid_name_rejects_every_operation ⟨[]⟩ "Logs".data ⟨"Logs".data, "b.txt".data⟩
      none none [] [] [] (fun _ => none) (by decide) (by decide)).2.2.2.2.2.2.2.2.1⟩

/-- C4: for every blob path whose container exists in the in-memory backend
and every string `s`, `setBlobContentsFromString` succeeds, the stored bytes
are the UTF-8 encoding of `s`, and a subsequent `getBlobContentsAsString`
decodes them back to exactly `s`. -/
theorem setString_then_getString (st : InMemoryBlobStorage) (p : BlobPath) (s : Str)
    (hex : st.containerExists p.containerName = .resolved true) :
    (st.setBlobContentsFromString p s none).1 = .resolved () ∧
    (∃ container2,
      mapFind? (st.setBlobContentsFromString p s none).2.containers p.containerName
        = some container2 ∧
      mapFind? container2.blobs p.blobName
        = some ⟨utf8Encode s, some defaultContentType⟩) ∧
    (st.setBlobContentsFromString p s none).2.getBlobContentsAsString p
      = .resolved s := by
  obtain ⟨container, hgc⟩ :
      ∃ container, st.getInMemoryContainer p.containerName = .resolved container := by
    cases hgc : st.getInMemoryContainer p.containerName with
    | resolved c => exact ⟨c, rfl⟩
    | rejected e =>
      exfalso
      simp only [InMemoryBlobStorage.containerExists, hgc,
        resolveIfErrorMessageContains] at hex
      by_cases hc : strContains e.message "ContainerNotFound".data = true
      · simp only [if_pos hc] at hex
        exact absurd hex (by simp)
      · simp only [if_neg hc] at hex
        exact absurd hex (by simp)
  have hvalid : ¬(p.containerName = [] ∨ p.containerName ≠ toLowerCase p.containerName) := by
    intro hv
    simp only [InMemoryBlobStorage.getInMemoryContainer, if_pos hv] at hgc
    cases hgc
  have hset : st.setBlobContentsFromString p s none
      = (.resolved (),
         ⟨mapSet st.containers p.containerName
           { container with
             blobs := mapSet container.blobs p.blobName
               ⟨utf8Encode s, some defaultContentType⟩ }⟩) := by
    simp only [InMemoryBlobStorage.setBlobContentsFromString, hgc]
    rfl
  refine ⟨by rw [hset], ?_, ?_⟩
  · rw [hset]
    exact ⟨_, mapFind?_mapSet_self _ _ _, mapFind?_mapSet_self _ _ _⟩
  · rw [hset]
    simp only [InMemoryBlobStorage.getBlobContentsAsString,
      InMemoryBlobStorage.getInMemoryBlob, InMemoryBlobStorage.getInMemoryContainer,
      if_neg hvalid, mapFind?_mapSet_self, bufferToString_utf8Encode]

theorem setString_then_getString_witness :
    (⟨[("c".data, ⟨"c".data, [], privatePolicy⟩)]⟩ : InMemoryBlobStorage).containerExists
        (BlobPath.mk "c".data "b".data).containerName = .resolved true ∧
    (((⟨[("c".data, ⟨"c".data, [], privatePolicy⟩)]⟩ : InMemoryBlobStorage).setBlobContentsFromString
        ⟨"c".data, "b".data⟩ "hi".data none).1 = .resolved () ∧
     (∃ container2,
        mapFind? ((⟨[("c".data, ⟨"c".data, [], privatePolicy⟩)]⟩ : InMemoryBlobStorage).setBlobContentsFromString
            ⟨"c".data, "b".data⟩ "hi".data none).2.containers
            (BlobPath.mk "c".data "b".data).containerName = some container2 ∧
        mapFind? container2.blobs (BlobPath.mk "c".data "b".data).blobName
          = some ⟨utf8Encode "hi".data, some defaultContentType⟩) ∧
     ((⟨[("c".data, ⟨"c".data, [], privatePolicy⟩)]⟩ : InMemoryBlobStorage).setBlobContentsFromString
        ⟨"c".data, "b".data⟩ "hi".data none).2.getBlobContentsAsString
        ⟨"c".data, "b".data⟩ = .resolved "hi".data) :=
  ⟨by decide,
   setString_then_getString ⟨[("c".data, ⟨"c".data, [], privatePolicy⟩)]⟩
     ⟨"c".data, "b".data⟩ "hi".data (by decide)⟩

theorem mapHasKey_mapErase_self {α : Type} (m : List (Str × α)) (k : Str) :
    mapHasKey (mapErase m k) k = false := by
  simp [mapHasKey, mapFind?_mapErase_self]

/-- C2, counterexample: deleting the blob `"c/b"` when the container `"c"`
itself does not exist does not resolve to `false` — both backends reject
with `ContainerNotFound` (the in-memory `deleteBlob` has no catch at all,
and the cloud `deleteBlob` only catches `BlobNotFound`), so `deleteBlob`
does fail on an absent target. -/
theorem deleteBlob_missing_container_rejects :
    (⟨[]⟩ : InMemoryBlobStorage).deleteBlob ⟨"c".data, "b".data⟩
      = (.rejected ⟨containerNotFoundMessage, none⟩, ⟨[]⟩) ∧
    AzureBlobStorage.deleteBlob ⟨[]⟩ ⟨"c".data, "b".data⟩
      = (.rejected ⟨containerNotFoundMessage, some 404⟩, ⟨[]⟩) := by
  decide

/-- C2, amended: on both backends, `deleteBlob` on a blob path with a valid
(non-empty, lowercase) container name resolves `false` when the container
exists but the blob does not, resolves `true` when the blob exists — after
which `blobExists` resolves `false` — and rejects with a `ContainerNotFound`
error when the container itself does not exist; for an invalid container
name it rejects with `InvalidResourceName`. -/
theorem deleteBlob_spec (st : InMemoryBlobStorage) (svc : AzureBlobService)
    (p : BlobPath) :
    (p.containerName = [] ∨ p.containerName ≠ toLowerCase p.containerName →
      st.deleteBlob p = (.rejected ⟨invalidResourceNameMessage, none⟩, st) ∧
      AzureBlobStorage.deleteBlob svc p
        = (.rejected ⟨invalidResourceNameMessage, some 400⟩, svc)) ∧
    (¬(p.containerName = [] ∨ p.containerName ≠ toLowerCase p.containerName) →
      (mapFind? st.containers p.containerName = none →
        st.deleteBlob p = (.rejected ⟨containerNotFoundMessage, none⟩, st)) ∧
      (mapFind? svc.containers p.containerName = none →
        AzureBlobStorage.deleteBlob svc p
          = (.rejected ⟨containerNotFoundMessage, some 404⟩, svc)) ∧
      (∀ container, mapFind? st.containers p.containerName = some container →
        (mapHasKey container.blobs p.blobName = false →
          st.deleteBlob p = (.resolved false, st)) ∧
        (mapHasKey container.blobs p.blobName = true →
          (st.deleteBlob p).1 = .resolved true ∧
          (st.deleteBlob p).2.blobExists p = .resolved false)) ∧
      (∀ container, mapFind? svc.containers p.containerName = some container →
        (mapFind? container.blobs p.blobName = none →
          AzureBlobStorage.deleteBlob svc p = (.resolved false, svc)) ∧
        (∀ blob, mapFind? container.blobs p.blobName = some blob →
          (AzureBlobStorage.deleteBlob svc p).1 = .resolved true ∧
          AzureBlobStorage.blobExists (AzureBlobStorage.deleteBlob svc p).2 p
            = .resolved false))) := by
  constructor
  · intro hinvalid
    constructor
    · simp only [InMemoryBlobStorage.deleteBlob,
        InMemoryBlobStorage.getInMemoryContainer, if_pos hinvalid]
    · simp only [AzureBlobStorage.deleteBlob, AzureBlobService.blobDelete,
        AzureBlobService.findContainer, if_pos hinvalid,
        resolveIfErrorMessageContains]
      rw [if_neg (by decide)]
  · intro hvalid
    refine ⟨?_, ?_, ?_, ?_⟩
    · intro habsent
      simp only [InMemoryBlobStorage.deleteBlob,
        InMemoryBlobStorage.getInMemoryContainer, if_neg hvalid, habsent]
    · intro habsent
      simp only [AzureBlobStorage.deleteBlob, AzureBlobService.blobDelete,
        AzureBlobService.findContainer, if_neg hvalid, habsent,
        resolveIfErrorMessageContains]
      rw [if_neg (by decide)]
    · intro container hfound
      have hgc : st.getInMemoryContainer p.containerName = .resolved container := by
        simp only [InMemoryBlobStorage.getInMemoryContainer, if_neg hvalid, hfound]
      constructor
      · intro hnoblob
        simp only [InMemoryBlobStorage.deleteBlob, hgc, hnoblob, Bool.false_eq_true,
          if_false]
      · intro hblob
        have hdel : st.deleteBlob p
            = (.resolved true,
               st.setContainer p.containerName
                 { container with blobs := mapErase container.blobs p.blobName }) := by
          simp only [InMemoryBlobStorage.deleteBlob, hgc, hblob, if_true]
        refine ⟨by rw [hdel], ?_⟩
        rw [hdel]
        simp only [InMemoryBlobStorage.blobExists, InMemoryBlobStorage.setContainer,
          InMemoryBlobStorage.getInMemoryContainer, if_neg hvalid, mapFind?_mapSet_self,
          mapHasKey_mapErase_self]
    · intro container hfound
      constructor
      · intro hnoblob
        simp only [AzureBlobStorage.deleteBlob, AzureBlobService.blobDelete,
          AzureBlobService.findContainer, if_neg hvalid, hfound, hnoblob,
          resolveIfErrorMessageContains]
        rw [if_pos (by decide)]
      · intro blob hblob
        have hdel : AzureBlobStorage.deleteBlob svc p
            = (.resolved true,
               ⟨mapSet svc.containers p.containerName
                 { container with blobs := (mapErase container.blobs p.blobName) }⟩) := by
          simp only [AzureBlobStorage.deleteBlob, AzureBlobService.blobDelete,
            AzureBlobService.findContainer, if_neg hvalid, hfound, hblob]
        refine ⟨by rw [hdel], ?_⟩
        rw [hdel]
        simp only [AzureBlobStorage.blobExists, AzureBlobService.blobGetProperties,
          AzureBlobService.findBlob, AzureBlobService.findContainer, if_neg hvalid,
          mapFind?_mapSet_self, mapFind?_mapErase_self,
          resolveIfErrorStatusCodeEquals]
        rw [if_pos (by decide)]

theorem deleteBlob_spec_witness :
    ¬((BlobPath.mk "c".data "b".data).containerName = [] ∨
      (BlobPath.mk "c".data "b".data).containerName
        ≠ toLowerCase (BlobPath.mk "c".data "b".data).containerName) ∧
    ((⟨[("c".data, ⟨"c".data, [("b".data, ⟨[], some defaultContentType⟩)], privatePolicy⟩)]⟩ :
        InMemoryBlobStorage).deleteBlob ⟨"c".data, "b".data⟩).1 = .resolved true ∧
    ((⟨[("c".data, ⟨"c".data, [("b".data, ⟨[], some defaultContentType⟩)], privatePolicy⟩)]⟩ :
        InMemoryBlobStorage).deleteBlob ⟨"c".data, "b".data⟩).2.blobExists
        ⟨"c".data, "b".data⟩ = .resolved false ∧
    AzureBlobStorage.deleteBlob (⟨[]⟩ : AzureBlobService) ⟨"c".data, "b".data⟩
      = (.rejected ⟨containerNotFoundMessage, some 404⟩, ⟨[]⟩) ∧
    (AzureBlobStorage.deleteBlob
        (⟨[("c".data, ⟨"c".data, [("b".data, ⟨[], some defaultContentType⟩)], privatePolicy⟩)]⟩ :
          AzureBlobService) ⟨"c".data, "b".data⟩).1 = .resolved true :=
  ⟨by decide,
   (((deleteBlob_spec
        ⟨[("c".data, ⟨"c".data, [("b".data, ⟨[], some defaultContentType⟩)], privatePolicy⟩)]⟩
        ⟨[]⟩ ⟨"c".data, "b".data⟩).2 (by decide)).2.2.1
      ⟨"c".data, [("b".data, ⟨[], some defaultContentType⟩)], privatePolicy⟩
      (by decide)).2 (by decide) |>.1,
   (((deleteBlob_spec
        ⟨[("c".data, ⟨"c".data, [("b".data, ⟨[], some defaultContentType⟩)], privatePolicy⟩)]⟩
        ⟨[]⟩ ⟨"c".data, "b".data⟩).2 (by decide)).2.2.1
      ⟨"c".data, [("b".data, ⟨[], some defaultContentType⟩)], privatePolicy⟩
      (by decide)).2 (by decide) |>.2,
   ((deleteBlob_spec ⟨[]⟩ ⟨[]⟩ ⟨"c".data, "b".data⟩).2 (by decide)).2.1 rfl,
   ((((deleteBlob_spec ⟨[]⟩
        ⟨[("c".data, ⟨"c".data, [("b".data, ⟨[], some defaultContentType⟩)], privatePolicy⟩)]⟩
        ⟨"c".data, "b".data⟩).2 (by decide)).2.2.2
      ⟨"c".data, [("b".data, ⟨[], some defaultContentType⟩)], privatePolicy⟩
      (by decide)).2 ⟨[], some defaultContentType⟩ (by decide)).1⟩

/-- C7, counterexample: for the blob path `"A/x.txt"` — whose blob is absent
and whose container does not exist — `getBlobContentType` does not fail with
`ContainerNotFound`: both backends fail with `InvalidResourceName` because
the non-lowercase container name is rejected before any lookup. -/
theorem getBlobContentType_invalid_name_not_containerNotFound :
    (⟨[]⟩ : InMemoryBlobStorage).getBlobContentType ⟨"A".data, "x.txt".data⟩
      = .rejected ⟨invalidResourceNameMessage, none⟩ ∧
    AzureBlobStorage.getBlobContentType ⟨[]⟩ ⟨"A".data, "x.txt".data⟩
      = .rejected ⟨invalidResourceNameMessage, some 400⟩ ∧
    errorKind ⟨invalidResourceNameMessage, none⟩ ≠ "ContainerNotFound".data ∧
    mapFind? ([] : List (Str × InMemoryContainer)) "A".data = none := by
  decide

/-- C7, amended: for every blob path with a valid (non-empty, lowercase)
container name whose blob is absent, `getBlobContentType` fails with
`ContainerNotFound` when the container does not exist and with
`BlobNotFound` when the container exists but the blob does not, on both the
in-memory and the cloud backend; for an invalid container name it instead
fails with `InvalidResourceName`. -/
theorem getBlobContentType_error_kinds (st : InMemoryBlobStorage)
    (svc : AzureBlobService) (p : BlobPath)
    (hvalid : ¬(p.containerName = [] ∨ p.containerName ≠ toLowerCase p.containerName)) :
    (mapFind? st.containers p.containerName = none →
      st.getBlobContentType p = .rejected ⟨containerNotFoundMessage, none⟩) ∧
    (∀ container, mapFind? st.containers p.containerName = some container →
      mapFind? container.blobs p.blobName = none →
      st.getBlobContentType p = .rejected ⟨blobNotFoundMessage, none⟩) ∧
    (mapFind? svc.containers p.containerName = none →
      AzureBlobStorage.getBlobContentType svc p
        = .rejected ⟨containerNotFoundMessage, none⟩) ∧
    (∀ container, mapFind? svc.containers p.containerName = some container →
      mapFind? container.blobs p.blobName = none →
      AzureBlobStorage.getBlobContentType svc p
        = .rejected ⟨blobNotFoundMessage, none⟩) := by
  refine ⟨?_, ?_, ?_, ?_⟩
  · intro habsent
    simp only [InMemoryBlobStorage.getBlobContentType, InMemoryBlobStorage.getInMemoryBlob,
      InMemoryBlobStorage.getInMemoryContainer, if_neg hvalid, habsent]
  · intro container hfound hnoblob
    simp only [InMemoryBlobStorage.getBlobContentType, InMemoryBlobStorage.getInMemoryBlob,
      InMemoryBlobStorage.getInMemoryContainer, if_neg hvalid, hfound, hnoblob]
  · intro habsent
    have hfc : svc.findContainer p.containerName
        = .rejected ⟨containerNotFoundMessage, some 404⟩ := by
      simp only [AzureBlobService.findContainer, if_neg hvalid, habsent]
    simp only [AzureBlobStorage.getBlobContentType, AzureBlobService.blobGetProperties,
      AzureBlobService.findBlob, hfc, AzureBlobStorage.containerExists,
      resolveIfErrorMessageContains]
    rw [if_neg (by decide), if_pos (by decide)]
    simp
  · intro container hfound hnoblob
    have hfc : svc.findContainer p.containerName = .resolved container := by
      simp only [AzureBlobService.findContainer, if_neg hvalid, hfound]
    simp only [AzureBlobStorage.getBlobContentType, AzureBlobService.blobGetProperties,
      AzureBlobService.findBlob, hfc, hnoblob, AzureBlobStorage.containerExists]
    rw [if_neg (by decide)]
    simp

theorem getBlobContentType_error_kinds_witness :
    ¬((BlobPath.mk "missing-container".data "x.txt".data).containerName = [] ∨
      (BlobPath.mk "missing-container".data "x.txt".data).containerName
        ≠ toLowerCase (BlobPath.mk "missing-container".data "x.txt".data).containerName) ∧
    mapFind? (⟨[]⟩ : InMemoryBlobStorage).containers
      (BlobPath.mk "missing-container".data "x.txt".data).containerName = none ∧
    (⟨[]⟩ : InMemoryBlobStorage).getBlobContentType
      ⟨"missing-container".data, "x.txt".data⟩
      = .rejected ⟨containerNotFoundMessage, none⟩ ∧
    AzureBlobStorage.getBlobContentType (⟨[]⟩ : AzureBlobService)
      ⟨"missing-container".data, "x.txt".data⟩
      = .rejected ⟨containerNotFoundMessage, none⟩ :=
  ⟨by decide, by decide,
   (getBlobContentType_error_kinds ⟨[]⟩ ⟨[]⟩
      ⟨"missing-container".data, "x.txt".data⟩ (by decide)).1 (by decide),
   (getBlobContentType_error_kinds ⟨[]⟩ ⟨[]⟩
      ⟨"missing-container".data, "x.txt".data⟩ (by decide)).2.2.1 (by decide)⟩

theorem getInMemoryContainer_resolved_iff (st : InMemoryBlobStorage) (n : Str)
    (container : InMemoryContainer) :
    st.getInMemoryContainer n = .resolved container ↔
    (¬(n = [] ∨ n ≠ toLowerCase n) ∧ mapFind? st.containers n = some container) := by
  unfold InMemoryBlobStorage.getInMemoryContainer
  by_cases hv : n = [] ∨ n ≠ toLowerCase n
  · simp only [if_pos hv]
    constructor
    · intro h; cases h
    · intro h; exact absurd hv h.1
  · simp only [if_neg hv]
    cases hfind : mapFind? st.containers n with
    | none =>
      constructor
      · intro h; cases h
      · intro h; cases h.2
    | some c =>
      constructor
      · intro h
        cases h
        exact ⟨hv, rfl⟩
      · intro h
        cases h.2
        rfl

/-- After `setBlobContentsFromString` the stored content type is exactly the
falsy-defaulted option value (helper for the C10 theorem). -/
theorem storedContentType_after_setString (st : InMemoryBlobStorage) (p : BlobPath)
    (s : Str) (options : Option BlobContentOptions) (container : InMemoryContainer)
    (hfound : st.getInMemoryContainer p.containerName = .resolved container) :
    storedContentType (st.setBlobContentsFromString p s options).2 p
      = some (some (jsOrStr (options.bind (·.contentType)) defaultContentType)) := by
  obtain ⟨hvalid, hfind⟩ := (getInMemoryContainer_resolved_iff st _ container).1 hfound
  simp only [InMemoryBlobStorage.setBlobContentsFromString, hfound,
    InMemoryBlobStorage.setContainer, storedContentType, mapFind?_mapSet_self]

/-- After `setBlobContentsFromFile` the stored content type is exactly the
falsy-defaulted option value (helper for the C10 theorem). -/
theorem storedContentType_after_setFile (st : InMemoryBlobStorage) (p : BlobPath)
    (fileSystem : Str → Option (List Nat)) (filePath : Str) (fileBytes : List Nat)
    (options : Option BlobContentOptions) (container : InMemoryContainer)
    (hfound : st.getInMemoryContainer p.containerName = .resolved container)
    (hfile : fileSystem filePath = some fileBytes) :
    storedContentType (st.setBlobContentsFromFile fileSystem p filePath options).2 p
      = some (some (jsOrStr (options.bind (·.contentType)) defaultContentType)) := by
  simp only [InMemoryBlobStorage.setBlobContentsFromFile, hfound, hfile,
    InMemoryBlobStorage.setContainer, storedContentType, mapFind?_mapSet_self]

/-- C10, counterexample: for an existing blob with content type
`"text/html"`, `setBlobContentsFromString` called with the provided (but
falsy) content-type option `""` stores `"application/octet-stream"`, not the
provided option, so "the new content type equals the provided option when
one is given" fails at the empty string. -/
theorem setContents_empty_contentType_option_ignored :
    storedContentType
      ((⟨[("c".data, ⟨"c".data, [("b".data, ⟨[], some "text/html".data⟩)],
          privatePolicy⟩)]⟩ :
        InMemoryBlobStorage).setBlobContentsFromString ⟨"c".data, "b".data⟩ "x".data
          (some ⟨some []⟩)).2 ⟨"c".data, "b".data⟩
      = some (some defaultContentType) ∧
    (some (some ([] : Str)) : Option (Option Str)) ≠ some (some defaultContentType) := by
  decide

/-- C10, amended: for every container that exists (in particular for every
existing blob in it, whatever its current content type and however it was
assigned — including via `setBlobContentType`), `setBlobContentsFromString`
and `setBlobContentsFromFile` store content type
`"application/octet-stream"` when called without a content-type option, when
called with an options object without the field, and when called with the
falsy empty-string option; the stored content type equals the provided
option exactly when a non-empty one is given. -/
theorem setContents_resets_contentType (st : InMemoryBlobStorage) (p : BlobPath)
    (s : Str) (fileSystem : Str → Option (List Nat)) (filePath : Str)
    (fileBytes : List Nat) (container : InMemoryContainer)
    (hfound : st.getInMemoryContainer p.containerName = .resolved container)
    (hfile : fileSystem filePath = some fileBytes) :
    storedContentType (st.setBlobContentsFromString p s none).2 p
      = some (some defaultContentType) ∧
    storedContentType (st.setBlobContentsFromString p s (some ⟨none⟩)).2 p
      = some (some defaultContentType) ∧
    storedContentType (st.setBlobContentsFromString p s (some ⟨some []⟩)).2 p
      = some (some defaultContentType) ∧
    (∀ t, t ≠ [] →
      storedContentType (st.setBlobContentsFromString p s (some ⟨some t⟩)).2 p
        = some (some t)) ∧
    (∀ ct, storedContentType
        ((st.setBlobContentType p ct).2.setBlobContentsFromString p s none).2 p
      = some (some defaultContentType)) ∧
    storedContentType (st.setBlobContentsFromFile fileSystem p filePath none).2 p
      = some (some defaultContentType) ∧
    (∀ t, t ≠ [] →
      storedContentType
        (st.setBlobContentsFromFile fileSystem p filePath (some ⟨some t⟩)).2 p
        = some (some t)) := by
  obtain ⟨hvalid, hfind⟩ := (getInMemoryContainer_resolved_iff st _ container).1 hfound
  refine ⟨?_, ?_, ?_, ?_, ?_, ?_, ?_⟩
  · exact storedContentType_after_setString st p s none container hfound
  · exact storedContentType_after_setString st p s (some ⟨none⟩) container hfound
  · exact storedContentType_after_setString st p s (some ⟨some []⟩) container hfound
  · intro t ht
    rw [storedContentType_after_setString st p s (some ⟨some t⟩) container hfound]
    simp [jsOrStr, ht]
  · intro ct
    cases hblob : mapFind? container.blobs p.blobName with
    | none =>
      have hstate : (st.setBlobContentType p ct).2 = st := by
        simp only [InMemoryBlobStorage.setBlobContentType, hfound, hblob]
      rw [hstate]
      exact storedContentType_after_setString st p s none container hfound
    | some blob =>
      have hstate : (st.setBlobContentType p ct).2
          = st.setContainer p.containerName
              { container with
                blobs := (mapSet container.blobs p.blobName
                  { blob with contentType := some ct }) } := by
        simp only [InMemoryBlobStorage.setBlobContentType, hfound, hblob]
      rw [hstate]
      refine storedContentType_after_setString _ p s none
        { container with
          blobs := (mapSet container.blobs p.blobName
            { blob with contentType := some ct }) } ?_
      rw [getInMemoryContainer_resolved_iff]
      exact ⟨hvalid, by simp [InMemoryBlobStorage.setContainer, mapFind?_mapSet_self]⟩
  · exact storedContentType_after_setFile st p fileSystem filePath fileBytes none
      container hfound hfile
  · intro t ht
    rw [storedContentType_after_setFile st p fileSystem filePath fileBytes
      (some ⟨some t⟩) container hfound hfile]
    simp [jsOrStr, ht]

theorem setContents_resets_contentType_witness :
    (⟨[("c".data, ⟨"c".data, [("b".data, ⟨[], some "text/html".data⟩)],
        privatePolicy⟩)]⟩ : InMemoryBlobStorage).getInMemoryContainer
        (BlobPath.mk "c".data "b".data).containerName
      = .resolved ⟨"c".data, [("b".data, ⟨[], some "text/html".data⟩)], privatePolicy⟩ ∧
    (fun (_ : Str) => some ([104] : List Nat)) "f".data = some [104] ∧
    storedContentType
      ((⟨[("c".data, ⟨"c".data, [("b".data, ⟨[], some "text/html".data⟩)],
          privatePolicy⟩)]⟩ : InMemoryBlobStorage).setBlobContentsFromString
        ⟨"c".data, "b".data⟩ "x".data none).2 ⟨"c".data, "b".data⟩
      = some (some defaultContentType) :=
  ⟨by decide, rfl,
   (setContents_resets_contentType
      ⟨[("c".data, ⟨"c".data, [("b".data, ⟨[], some "text/html".data⟩)],
        privatePolicy⟩)]⟩
      ⟨"c".data, "b".data⟩ "x".data (fun _ => some [104]) "f".data [104]
      ⟨"c".data, [("b".data, ⟨[], some "text/html".data⟩)], privatePolicy⟩
      (by decide) rfl).1⟩

/-! ## Backend parity (scenarios 1-3) -/

theorem parity_createContainer (m : List (Str × InMemoryContainer)) (n : Str) :
    sameOutcome (InMemoryBlobStorage.createContainer ⟨m⟩ n none).1
      (AzureBlobStorage.createContainer ⟨m⟩ n none).1 ∧
    (InMemoryBlobStorage.createContainer ⟨m⟩ n none).2.containers
      = (AzureBlobStorage.createContainer ⟨m⟩ n none).2.containers := by
  by_cases hv : n = [] ∨ n ≠ toLowerCase n
  · have h1 : InMemoryBlobStorage.createContainer ⟨m⟩ n none
        = (.rejected ⟨invalidResourceNameMessage, none⟩, ⟨m⟩) := by
      simp only [InMemoryBlobStorage.createContainer,
        InMemoryBlobStorage.getInMemoryContainer, if_pos hv]
      rw [if_neg (by decide)]
    have h2 : AzureBlobStorage.createContainer ⟨m⟩ n none
        = (.rejected ⟨invalidResourceNameMessage, some 400⟩, ⟨m⟩) := by
      simp only [AzureBlobStorage.createContainer, AzureBlobService.containerCreate,
        if_pos hv, resolveIfErrorMessageContains]
      rw [if_neg (by decide)]
    rw [h1, h2]
    exact ⟨rfl, rfl⟩
  · cases hfind : mapFind? m n with
    | none =>
      have hhk : mapHasKey m n = false := by simp [mapHasKey, hfind]
      have h1 : InMemoryBlobStorage.createContainer ⟨m⟩ n none
          = (.resolved true, ⟨mapSet m n ⟨n, [], privatePolicy⟩⟩) := by
        simp only [InMemoryBlobStorage.createContainer,
          InMemoryBlobStorage.getInMemoryContainer, if_neg hv, hfind, hhk,
          Bool.false_eq_true, if_false]
        rw [if_pos (by decide)]
        rfl
      have h2 : AzureBlobStorage.createContainer ⟨m⟩ n none
          = (.resolved true, ⟨mapSet m n ⟨n, [], privatePolicy⟩⟩) := by
        simp only [AzureBlobStorage.createContainer, AzureBlobService.containerCreate,
          if_neg hv, hhk, Bool.false_eq_true, if_false]
        rfl
      rw [h1, h2]
      exact ⟨rfl, rfl⟩
    | some c =>
      have hhk : mapHasKey m n = true := by simp [mapHasKey, hfind]
      have h1 : InMemoryBlobStorage.createContainer ⟨m⟩ n none
          = (.resolved false, ⟨m⟩) := by
        simp only [InMemoryBlobStorage.createContainer,
          InMemoryBlobStorage.getInMemoryContainer, if_neg hv, hfind, hhk, if_true]
      have h2 : AzureBlobStorage.createContainer ⟨m⟩ n none
          = (.resolved false, ⟨m⟩) := by
        simp only [AzureBlobStorage.createContainer, AzureBlobService.containerCreate,
          if_neg hv, hhk, if_true, resolveIfErrorMessageContains]
        rw [if_pos (by decide)]
      rw [h1, h2]
      exact ⟨rfl, rfl⟩

theorem parity_setString (m : List (Str × InMemoryContainer)) (p : BlobPath) (s : Str) :
    sameOutcome (InMemoryBlobStorage.setBlobContentsFromString ⟨m⟩ p s none).1
      (AzureBlobStorage.setBlobContentsFromString ⟨m⟩ p s none).1 ∧
    (InMemoryBlobStorage.setBlobContentsFromString ⟨m⟩ p s none).2.containers
      = (AzureBlobStorage.setBlobContentsFromString ⟨m⟩ p s none).2.containers := by
  by_cases hv : p.containerName = [] ∨ p.containerName ≠ toLowerCase p.containerName
  · have h1 : InMemoryBlobStorage.setBlobContentsFromString ⟨m⟩ p s none
        = (.rejected ⟨invalidResourceNameMessage, none⟩, ⟨m⟩) := by
      simp only [InMemoryBlobStorage.setBlobContentsFromString,
        InMemoryBlobStorage.getInMemoryContainer, if_pos hv]
    have h2 : AzureBlobStorage.setBlobContentsFromString ⟨m⟩ p s none
        = (.rejected ⟨invalidResourceNameMessage, some 400⟩, ⟨m⟩) := by
      simp only [AzureBlobStorage.setBlobContentsFromString,
        AzureBlobService.blobUpload, AzureBlobService.findContainer, if_pos hv]
    rw [h1, h2]
    exact ⟨rfl, rfl⟩
  · cases hfind : mapFind? m p.containerName with
    | none =>
      have h1 : InMemoryBlobStorage.setBlobContentsFromString ⟨m⟩ p s none
          = (.rejected ⟨containerNotFoundMessage, none⟩, ⟨m⟩) := by
        simp only [InMemoryBlobStorage.setBlobContentsFromString,
          InMemoryBlobStorage.getInMemoryContainer, if_neg hv, hfind]
      have h2 : AzureBlobStorage.setBlobContentsFromString ⟨m⟩ p s none
          = (.rejected ⟨containerNotFoundMessage, some 404⟩, ⟨m⟩) := by
        simp only [AzureBlobStorage.setBlobContentsFromString,
          AzureBlobService.blobUpload, AzureBlobService.findContainer, if_neg hv, hfind]
      rw [h1, h2]
      exact ⟨rfl, rfl⟩
    | some c =>
      have h1 : InMemoryBlobStorage.setBlobContentsFromString ⟨m⟩ p s none
          = (.resolved (),
             ⟨mapSet m p.containerName
               { c with blobs := (mapSet c.blobs p.blobName
                   ⟨utf8Encode s, some defaultContentType⟩) }⟩) := by
        simp only [InMemoryBlobStorage.setBlobContentsFromString,
          InMemoryBlobStorage.getInMemoryContainer, if_neg hv, hfind]
        rfl
      have h2 : AzureBlobStorage.setBlobContentsFromString ⟨m⟩ p s none
          = (.resolved (),
             ⟨mapSet m p.containerName
               { c with blobs := (mapSet c.blobs p.blobName
                   ⟨utf8Encode s, some defaultContentType⟩) }⟩) := by
        simp only [AzureBlobStorage.setBlobContentsFromString,
          AzureBlobService.blobUpload, AzureBlobService.findContainer, if_neg hv, hfind]
        rw [if_neg (by simp)]
        rfl
      rw [h1, h2]
      exact ⟨rfl, rfl⟩

theorem parity_getString (m : List (Str × InMemoryContainer)) (p : BlobPath) :
    sameOutcome (InMemoryBlobStorage.getBlobContentsAsString ⟨m⟩ p)
      (AzureBlobStorage.getBlobContentsAsString ⟨m⟩ p) := by
  by_cases hv : p.containerName = [] ∨ p.containerName ≠ toLowerCase p.containerName
  · have h1 : InMemoryBlobStorage.getBlobContentsAsString ⟨m⟩ p
        = .rejected ⟨invalidResourceNameMessage, none⟩ := by
      simp only [InMemoryBlobStorage.getBlobContentsAsString,
        InMemoryBlobStorage.getInMemoryBlob,
        InMemoryBlobStorage.getInMemoryContainer, if_pos hv]
    have h2 : AzureBlobStorage.getBlobContentsAsString ⟨m⟩ p
        = .rejected ⟨invalidResourceNameMessage, some 400⟩ := by
      simp only [AzureBlobStorage.getBlobContentsAsString,
        AzureBlobService.blobDownload, AzureBlobService.findBlob,
        AzureBlobService.findContainer, if_pos hv]
    rw [h1, h2]
    exact rfl
  · cases hfind : mapFind? m p.containerName with
    | none =>
      have h1 : InMemoryBlobStorage.getBlobContentsAsString ⟨m⟩ p
          = .rejected ⟨containerNotFoundMessage, none⟩ := by
        simp only [InMemoryBlobStorage.getBlobContentsAsString,
          InMemoryBlobStorage.getInMemoryBlob,
          InMemoryBlobStorage.getInMemoryContainer, if_neg hv, hfind]
      have h2 : AzureBlobStorage.getBlobContentsAsString ⟨m⟩ p
          = .rejected ⟨containerNotFoundMessage, some 404⟩ := by
        simp only [AzureBlobStorage.getBlobContentsAsString,
          AzureBlobService.blobDownload, AzureBlobService.findBlob,
          AzureBlobService.findContainer, if_neg hv, hfind]
      rw [h1, h2]
      exact rfl
    | some c =>
      cases hblob : mapFind? c.blobs p.blobName with
      | none =>
        have h1 : InMemoryBlobStorage.getBlobContentsAsString ⟨m⟩ p
            = .rejected ⟨blobNotFoundMessage, none⟩ := by
          simp only [InMemoryBlobStorage.getBlobContentsAsString,
            InMemoryBlobStorage.getInMemoryBlob,
            InMemoryBlobStorage.getInMemoryContainer, if_neg hv, hfind, hblob]
        have h2 : AzureBlobStorage.getBlobContentsAsString ⟨m⟩ p
            = .rejected ⟨blobNotFoundMessage, some 404⟩ := by
          simp only [AzureBlobStorage.getBlobContentsAsString,
            AzureBlobService.blobDownload, AzureBlobService.findBlob,
            AzureBlobService.findContainer, if_neg hv, hfind, hblob]
        rw [h1, h2]
        exact rfl
      | some blob =>
        have h1 : InMemoryBlobStorage.getBlobContentsAsString ⟨m⟩ p
            = .resolved (bufferToString blob.contents) := by
          simp only [InMemoryBlobStorage.getBlobContentsAsString,
            InMemoryBlobStorage.getInMemoryBlob,
            InMemoryBlobStorage.getInMemoryContainer, if_neg hv, hfind, hblob]
        have h2 : AzureBlobStorage.getBlobContentsAsString ⟨m⟩ p
            = .resolved (bufferToString blob.contents) := by
          simp only [AzureBlobStorage.getBlobContentsAsString,
            AzureBlobService.blobDownload, AzureBlobService.findBlob,
            AzureBlobService.findContainer, if_neg hv, hfind, hblob]
        rw [h1, h2]
        exact rfl

theorem parity_deleteBlob (m : List (Str × InMemoryContainer)) (p : BlobPath) :
    sameOutcome (InMemoryBlobStorage.deleteBlob ⟨m⟩ p).1
      (AzureBlobStorage.deleteBlob ⟨m⟩ p).1 ∧
    (InMemoryBlobStorage.deleteBlob ⟨m⟩ p).2.containers
      = (AzureBlobStorage.deleteBlob ⟨m⟩ p).2.containers := by
  by_cases hv : p.containerName = [] ∨ p.containerName ≠ toLowerCase p.containerName
  · have h1 : InMemoryBlobStorage.deleteBlob ⟨m⟩ p
        = (.rejected ⟨invalidResourceNameMessage, none⟩, ⟨m⟩) := by
      simp only [InMemoryBlobStorage.deleteBlob,
        InMemoryBlobStorage.getInMemoryContainer, if_pos hv]
    have h2 : AzureBlobStorage.deleteBlob ⟨m⟩ p
        = (.rejected ⟨invalidResourceNameMessage, some 400⟩, ⟨m⟩) := by
      simp only [AzureBlobStorage.deleteBlob, AzureBlobService.blobDelete,
        AzureBlobService.findContainer, if_pos hv, resolveIfErrorMessageContains]
      rw [if_neg (by decide)]
    rw [h1, h2]
    exact ⟨rfl, rfl⟩
  · cases hfind : mapFind? m p.containerName with
    | none =>
      have h1 : InMemoryBlobStorage.deleteBlob ⟨m⟩ p
          = (.rejected ⟨containerNotFoundMessage, none⟩, ⟨m⟩) := by
        simp only [InMemoryBlobStorage.deleteBlob,
          InMemoryBlobStorage.getInMemoryContainer, if_neg hv, hfind]
      have h2 : AzureBlobStorage.deleteBlob ⟨m⟩ p
          = (.rejected ⟨containerNotFoundMessage, some 404⟩, ⟨m⟩) := by
        simp only [AzureBlobStorage.deleteBlob, AzureBlobService.blobDelete,
          AzureBlobService.findContainer, if_neg hv, hfind,
          resolveIfErrorMessageContains]
        rw [if_neg (by decide)]
      rw [h1, h2]
      exact ⟨rfl, rfl⟩
    | some c =>
      cases hblob : mapFind? c.blobs p.blobName with
      | none =>
        have hhk : mapHasKey c.blobs p.blobName = false := by
          simp [mapHasKey, hblob]
        have h1 : InMemoryBlobStorage.deleteBlob ⟨m⟩ p = (.resolved false, ⟨m⟩) := by
          simp only [InMemoryBlobStorage.deleteBlob,
            InMemoryBlobStorage.getInMemoryContainer, if_neg hv, hfind, hhk,
            Bool.false_eq_true, if_false]
        have h2 : AzureBlobStorage.deleteBlob ⟨m⟩ p = (.resolved false, ⟨m⟩) := by
          simp only [AzureBlobStorage.deleteBlob, AzureBlobService.blobDelete,
            AzureBlobService.findContainer, if_neg hv, hfind, hblob,
            resolveIfErrorMessageContains]
          rw [if_pos (by decide)]
        rw [h1, h2]
        exact ⟨rfl, rfl⟩
      | some blob =>
        have hhk : mapHasKey c.blobs p.blobName = true := by
          simp [mapHasKey, hblob]
        have h1 : InMemoryBlobStorage.deleteBlob ⟨m⟩ p
            = (.resolved true,
               ⟨mapSet m p.containerName
                 { c with blobs := (mapErase c.blobs p.blobName) }⟩) := by
          simp only [InMemoryBlobStorage.deleteBlob,
            InMemoryBlobStorage.getInMemoryContainer, if_neg hv, hfind, hhk, if_true]
          rfl
        have h2 : AzureBlobStorage.deleteBlob ⟨m⟩ p
            = (.resolved true,
               ⟨mapSet m p.containerName
                 { c with blobs := (mapErase c.blobs p.blobName) }⟩) := by
          simp only [AzureBlobStorage.deleteBlob, AzureBlobService.blobDelete,
            AzureBlobService.findContainer, if_neg hv, hfind, hblob]
        rw [h1, h2]
        exact ⟨rfl, rfl⟩

theorem parity_blobExists (m : List (Str × InMemoryContainer)) (p : BlobPath) :
    sameOutcome (InMemoryBlobStorage.blobExists ⟨m⟩ p)
      (AzureBlobStorage.blobExists ⟨m⟩ p) := by
  by_cases hv : p.containerName = [] ∨ p.containerName ≠ toLowerCase p.containerName
  · have h1 : InMemoryBlobStorage.blobExists ⟨m⟩ p
        = .rejected ⟨invalidResourceNameMessage, none⟩ := by
      simp only [InMemoryBlobStorage.blobExists,
        InMemoryBlobStorage.getInMemoryContainer, if_pos hv,
        resolveIfErrorMessageContains]
      rw [if_neg (by decide)]
    have h2 : AzureBlobStorage.blobExists ⟨m⟩ p
        = .rejected ⟨invalidResourceNameMessage, some 400⟩ := by
      simp only [AzureBlobStorage.blobExists, AzureBlobService.blobGetProperties,
        AzureBlobService.findBlob, AzureBlobService.findContainer, if_pos hv,
        resolveIfErrorStatusCodeEquals]
      rw [if_neg (by decide)]
    rw [h1, h2]
    exact rfl
  · cases hfind : mapFind? m p.containerName with
    | none =>
      have h1 : InMemoryBlobStorage.blobExists ⟨m⟩ p = .resolved false := by
        simp only [InMemoryBlobStorage.blobExists,
          InMemoryBlobStorage.getInMemoryContainer, if_neg hv, hfind,
          resolveIfErrorMessageContains]
        rw [if_pos (by decide)]
      have h2 : AzureBlobStorage.blobExists ⟨m⟩ p = .resolved false := by
        simp only [AzureBlobStorage.blobExists, AzureBlobService.blobGetProperties,
          AzureBlobService.findBlob, AzureBlobService.findContainer, if_neg hv, hfind,
          resolveIfErrorStatusCodeEquals]
        rw [if_pos (by decide)]
      rw [h1, h2]
      exact rfl
    | some c =>
      cases hblob : mapFind? c.blobs p.blobName with
      | none =>
        have hhk : mapHasKey c.blobs p.blobName = false := by
          simp [mapHasKey, hblob]
        have h1 : InMemoryBlobStorage.blobExists ⟨m⟩ p = .resolved false := by
          simp only [InMemoryBlobStorage.blobExists,
            InMemoryBlobStorage.getInMemoryContainer, if_neg hv, hfind, hhk]
        have h2 : AzureBlobStorage.blobExists ⟨m⟩ p = .resolved false := by
          simp only [AzureBlobStorage.blobExists, AzureBlobService.blobGetProperties,
            AzureBlobService.findBlob, AzureBlobService.findContainer, if_neg hv,
            hfind, hblob, resolveIfErrorStatusCodeEquals]
          rw [if_pos (by decide)]
        rw [h1, h2]
        exact rfl
      | some blob =>
        have hhk : mapHasKey c.blobs p.blobName = true := by
          simp [mapHasKey, hblob]
        have h1 : InMemoryBlobStorage.blobExists ⟨m⟩ p = .resolved true := by
          simp only [InMemoryBlobStorage.blobExists,
            InMemoryBlobStorage.getInMemoryContainer, if_neg hv, hfind, hhk]
        have h2 : AzureBlobStorage.blobExists ⟨m⟩ p = .resolved true := by
          simp only [AzureBlobStorage.blobExists, AzureBlobService.blobGetProperties,
            AzureBlobService.findBlob, AzureBlobService.findContainer, if_neg hv,
            hfind, hblob]
        rw [h1, h2]
        exact rfl

/-- C9: started from equivalent preconditions (equal abstract container
states), the in-memory backend and the cloud backend produce the identical
boolean result or the identical error kind — and leave equal states — for
every operation of scenarios 1-3: `createContainer` (in every repetition),
`setBlobContentsFromString` followed by `getBlobContentsAsString`, and
`deleteBlob` / `blobExists`. -/
theorem backend_parity (st : InMemoryBlobStorage) (svc : AzureBlobService)
    (hrel : st.containers = svc.containers) (n : Str) (p : BlobPath) (s : Str) :
    sameOutcome (st.createContainer n none).1
      (AzureBlobStorage.createContainer svc n none).1 ∧
    (st.createContainer n none).2.containers
      = (AzureBlobStorage.createContainer svc n none).2.containers ∧
    sameOutcome (st.setBlobContentsFromString p s none).1
      (AzureBlobStorage.setBlobContentsFromString svc p s none).1 ∧
    (st.setBlobContentsFromString p s none).2.containers
      = (AzureBlobStorage.setBlobContentsFromString svc p s none).2.containers ∧
    sameOutcome (st.getBlobContentsAsString p)
      (AzureBlobStorage.getBlobContentsAsString svc p) ∧
    sameOutcome (st.deleteBlob p).1 (AzureBlobStorage.deleteBlob svc p).1 ∧
    (st.deleteBlob p).2.containers = (AzureBlobStorage.deleteBlob svc p).2.containers ∧
    sameOutcome (st.blobExists p) (AzureBlobStorage.blobExists svc p) := by
  obtain ⟨m⟩ := st
  obtain ⟨m2⟩ := svc
  have hm : m = m2 := hrel
  subst hm
  exact ⟨(parity_createContainer m n).1, (parity_createContainer m n).2,
    (parity_setString m p s).1, (parity_setString m p s).2,
    parity_getString m p,
    (parity_deleteBlob m p).1, (parity_deleteBlob m p).2,
    parity_blobExists m p⟩

theorem backend_parity_witness :
    (⟨[("c".data, ⟨"c".data, [], privatePolicy⟩)]⟩ : InMemoryBlobStorage).containers
      = (⟨[("c".data, ⟨"c".data, [], privatePolicy⟩)]⟩ : AzureBlobService).containers ∧
    sameOutcome
      ((⟨[("c".data, ⟨"c".data, [], privatePolicy⟩)]⟩ :
          InMemoryBlobStorage).createContainer "c".data none).1
      (AzureBlobStorage.createContainer
        ⟨[("c".data, ⟨"c".data, [], privatePolicy⟩)]⟩ "c".data none).1 ∧
    sameOutcome
      ((⟨[("c".data, ⟨"c".data, [], privatePolicy⟩)]⟩ :
          InMemoryBlobStorage).deleteBlob ⟨"c".data, "b".data⟩).1
      (AzureBlobStorage.deleteBlob
        ⟨[("c".data, ⟨"c".data, [], privatePolicy⟩)]⟩ ⟨"c".data, "b".data⟩).1 :=
  ⟨rfl,
   (backend_parity ⟨[("c".data, ⟨"c".data, [], privatePolicy⟩)]⟩
      ⟨[("c".data, ⟨"c".data, [], privatePolicy⟩)]⟩ rfl "c".data
      ⟨"c".data, "b".data⟩ "hi".data).1,
   (backend_parity ⟨[("c".data, ⟨"c".data, [], privatePolicy⟩)]⟩
      ⟨[("c".data, ⟨"c".data, [], privatePolicy⟩)]⟩ rfl "c".data
      ⟨"c".data, "b".data⟩ "hi".data).2.2.2.2.2.1⟩
